import Mathlib

/-!
Shallow embedding of the TAP token SCORE (`src/tap_token/tap_token.py`).

Python arbitrary-precision integers are modelled as `Int`.  ICON `VarDB`,
`DictDB` and `ArrayDB` collections are modelled as fields of a `State`
structure: `DictDB(value_type=int)` becomes a total function with default `0`,
`ArrayDB` becomes a `List`, and `VarDB(value_type=Address)` (whose unset value
is no valid address) becomes `Option Addr`.  `revert` is modelled by returning
`Except.error`: a reverted call leaves the persistent state unchanged, which is
exactly what discarding the intermediate state accomplishes.  `self.now()` is
passed to each operation that reads it as an explicit `now : Int` argument, and
`self.msg.sender` as a `sender : Addr` argument.  Event logs, `Logger.debug`
and the external `tokenFallback` call mutate no ledger state and are not
modelled; `_transfer` is split into the mutations performed before the
`tokenFallback` hook (`transferPhase1`, source lines 342-365) and those
performed after it (`transferPhase2`, source lines 373-380), with the full
`_transfer` being their composition.  Read-only external methods mutate nothing
and are omitted from the operation alphabet.
-/

/-- An ICON address: an identifier plus the contract flag (`Address.is_contract`). -/
structure Addr where
  ident : Nat
  is_contract : Bool
deriving DecidableEq, Repr

instance : Inhabited Addr := ⟨⟨0, false⟩⟩

/-- The four slots of `self._staked_balances[addr]`, indexed in the source by the
`Status` constants AVAILABLE, STAKED, UNSTAKING and UNSTAKING_PERIOD. -/
structure StakeRecord where
  available : Int
  staked : Int
  unstaking : Int
  unstakingPeriod : Int
deriving DecidableEq, Repr

def StakeRecord.zero : StakeRecord := ⟨0, 0, 0, 0⟩

/-- One constructor per distinct `revert` site reached by the modelled methods. -/
inductive Err where
  | negativeSupply      -- "Initial supply cannot be less than zero"
  | negativeDecimals    -- "Decimals cannot be less than zero"
  | negativeValue       -- negative stake or transfer value
  | outOfBalance        -- "Out of TAP balance" / "Out of balance"
  | belowMinimumStake   -- "Staked TAP must be greater than the minimum stake amount ..."
  | stakingNotEnabled   -- "Staking must first be enabled."
  | switchDivsNotEnabled -- "Switching to dividends for staked tap has to be enabled."
  | onlyOwner           -- "Only owner can call this method" (and the untether guard)
  | onlyDividends       -- "This method can only be called by the dividends distribution contract"
  | locked              -- "Locked address not permitted to stake." / "Transfer of TAP has been locked ..."
  | pausedErr           -- "TAP token transfers are paused."
  | outOfAvailable      -- "Out of available balance"
  | notInList           -- "... not in blacklist/locklist/whitelist address"
deriving DecidableEq, Repr

/-- The persistent state of the contract: one field per collection declared in
`TapToken.__init__`, plus the immutable `self.owner`. -/
structure State where
  owner : Addr
  total_supply : Int
  decimals : Int
  addresses : List Addr
  balances : Addr → Int
  even_day_changes : List Addr
  odd_day_changes : List Addr
  max_loop : Int
  index_update_balance : Int
  index_address_changes : Int
  balance_update_db : Int
  address_update_db : Int
  dividends_score : Option Addr
  blacklist_address : List Addr
  staked_balances : Addr → StakeRecord
  minimum_stake : Int
  unstaking_period : Int
  total_staked_balance : Int
  even_day_stake_changes : List Addr
  odd_day_stake_changes : List Addr
  stake_update_db : Int
  index_stake_changes : Int
  staking_enabled : Bool
  switch_divs_to_staked_tap_enabled : Bool
  paused : Bool
  pause_whitelist : List Addr
  locklist : List Addr

/-- Point update of a `DictDB`-like total function. -/
def updFn (f : Addr → Int) (a : Addr) (v : Int) : Addr → Int :=
  fun x => if x = a then v else f x

/-- Point update of the staked-balances dictionary. -/
def setRecord (s : State) (a : Addr) (r : StakeRecord) : State :=
  { s with staked_balances := fun x => if x = a then r else s.staked_balances x }

/-- `self._changes[i]`: `_changes[0]` is the even-day buffer, `_changes[1]` the
odd-day buffer.  The selector VarDBs only ever hold `(x + 1) % 2 ∈ {0, 1}`. -/
def getChanges (s : State) (i : Int) : List Addr :=
  if i = 1 then s.odd_day_changes else s.even_day_changes

def setChanges (s : State) (i : Int) (l : List Addr) : State :=
  if i = 1 then { s with odd_day_changes := l } else { s with even_day_changes := l }

/-- `self._stake_changes[i]`. -/
def getStakeChanges (s : State) (i : Int) : List Addr :=
  if i = 1 then s.odd_day_stake_changes else s.even_day_stake_changes

def setStakeChanges (s : State) (i : Int) (l : List Addr) : State :=
  if i = 1 then { s with odd_day_stake_changes := l } else { s with even_day_stake_changes := l }

/-- `self._first_time(_from)` (source lines 256-265). -/
def first_time (s : State) (a : Addr) : Prop :=
  (s.staked_balances a).available = 0 ∧ (s.staked_balances a).staked = 0 ∧
    (s.staked_balances a).unstaking = 0 ∧ s.balances a ≠ 0

instance (s : State) (a : Addr) : Decidable (first_time s a) := by
  unfold first_time; infer_instance

/-- `self._check_first_time(_from)` (source lines 267-270). -/
def check_first_time (s : State) (a : Addr) : State :=
  if first_time s a then
    setRecord s a { s.staked_balances a with available := s.balances a }
  else s

/-- `self._makeAvailable(_from)` (source lines 391-396). -/
def makeAvailable (s : State) (now : Int) (a : Addr) : State :=
  let r := s.staked_balances a
  if r.unstakingPeriod ≤ now then
    setRecord s a { r with unstaking := 0, available := r.available + r.unstaking }
  else s

/-- Python-dict insertion used by the drain pages: replace in place when the key
is present, append otherwise. -/
def dictInsert : List (Addr × Int) → Addr → Int → List (Addr × Int)
  | [], k, v => [(k, v)]
  | p :: rest, k, v => if p.1 = k then (k, v) :: rest else p :: dictInsert rest k v

/-- `buf[i]` for `i in range(start, stop)` (all indices in bounds when
`0 ≤ start` and `stop ≤ len buf`). -/
def pageAddrs (buf : List Addr) (start stop : Int) : List Addr :=
  (List.range (stop - start).toNat).map fun k => buf.getD (start.toNat + k) default

/-- The dict comprehension `{str(buf[i]): f(buf[i]) for i in range(start, stop)}`. -/
def buildPage (addrs : List Addr) (f : Addr → Int) : List (Addr × Int) :=
  addrs.foldl (fun d a => dictInsert d a (f a)) []

/-- ArrayDB swap-remove as in `remove_from_blacklist` / `remove_from_locklist` /
`remove_from_whitelist`: pop the last element; if it is not the target, overwrite
every occurrence of the target with it.  Callers guarantee the list is nonempty. -/
def swapRemove (l : List Addr) (a : Addr) : List Addr :=
  match l.getLast? with
  | none => []
  | some top =>
    if top = a then l.dropLast
    else l.dropLast.map fun x => if x = a then top else x

/-- `on_install` (source lines 149-164); `on_update` resets the three flags to
`False`, which is their value here already. -/
def on_install (owner : Addr) (initialSupply decs : Int) : Except Err State :=
  if initialSupply < 0 then .error .negativeSupply
  else if decs < 0 then .error .negativeDecimals
  else
    let ts := initialSupply * 10 ^ decs.toNat
    .ok {
      owner := owner
      total_supply := ts
      decimals := decs
      addresses := [owner]
      balances := updFn (fun _ => 0) owner ts
      even_day_changes := []
      odd_day_changes := []
      max_loop := 0
      index_update_balance := 0
      index_address_changes := 0
      balance_update_db := 0
      address_update_db := 0
      dividends_score := none
      blacklist_address := []
      staked_balances := fun _ => StakeRecord.zero
      minimum_stake := 0
      unstaking_period := 0
      total_staked_balance := 0
      even_day_stake_changes := []
      odd_day_stake_changes := []
      stake_update_db := 0
      index_stake_changes := 0
      staking_enabled := false
      switch_divs_to_staked_tap_enabled := false
      paused := false
      pause_whitelist := []
      locklist := [] }

/-- `untether` (source lines 172-182). -/
def untether (s : State) (sender : Addr) : Except Err State :=
  if sender ≠ s.owner then .error .onlyOwner else .ok s

/-- `toggle_staking_enabled` (source lines 280-283). -/
def toggle_staking_enabled (s : State) (sender : Addr) : Except Err State :=
  if sender ≠ s.owner then .error .onlyOwner
  else .ok { s with staking_enabled := !s.staking_enabled }

/-- `toggle_switch_divs_to_staked_tap_enabled` (source lines 285-288). -/
def toggle_switch_divs_to_staked_tap_enabled (s : State) (sender : Addr) : Except Err State :=
  if sender ≠ s.owner then .error .onlyOwner
  else .ok { s with switch_divs_to_staked_tap_enabled := !s.switch_divs_to_staked_tap_enabled }

/-- `togglePaused` (source lines 290-293). -/
def togglePaused (s : State) (sender : Addr) : Except Err State :=
  if sender ≠ s.owner then .error .onlyOwner
  else .ok { s with paused := !s.paused }

/-- Append `a` to `self._stake_changes[self._stake_update_db.get()]` with the
membership test of source lines 328-329 / 692-693. -/
def putStakeChange (s : State) (a : Addr) : State :=
  if a ∈ getStakeChanges s s.stake_update_db then s
  else setStakeChanges s s.stake_update_db (getStakeChanges s s.stake_update_db ++ [a])

/-- `stake` (source lines 295-329). -/
def stake (s : State) (sender : Addr) (now v : Int) : Except Err State :=
  if ¬s.staking_enabled then .error .stakingNotEnabled
  else if v < 0 then .error .negativeValue
  else if v > s.balances sender then .error .outOfBalance
  else if v < s.minimum_stake ∧ v ≠ 0 then .error .belowMinimumStake
  else
    let s1 := check_first_time s sender
    let s2 := makeAvailable s1 now sender
    if sender ∈ s2.locklist then .error .locked
    else
      let r := s2.staked_balances sender
      let old_stake := r.staked + r.unstaking
      let stake_increment := v - r.staked
      let unstake_amount : Int := if v > old_stake then 0 else old_stake - v
      let avail := if v > old_stake then r.available - (v - old_stake) else r.available
      let s3 := setRecord s2 sender
        { available := avail, staked := v, unstaking := unstake_amount,
          unstakingPeriod := now + s2.unstaking_period }
      let s4 := { s3 with total_staked_balance := s3.total_staked_balance + stake_increment }
      .ok (putStakeChange s4 sender)

/-- The part of `_transfer` executed before the `tokenFallback` hook: the checks,
the balance and available-balance updates and the known-address registration
(source lines 342-365). -/
def transferPhase1 (s : State) (now : Int) (sfrom sto : Addr) (v : Int) : Except Err State :=
  if v < 0 then .error .negativeValue
  else if s.balances sfrom < v then .error .outOfBalance
  else
    let s1 := check_first_time s sfrom
    let s2 := check_first_time s1 sto
    let s3 := makeAvailable s2 now sto
    let s4 := makeAvailable s3 now sfrom
    if (s4.staked_balances sfrom).available < v then .error .outOfAvailable
    else
      let b1 := updFn s4.balances sfrom (s4.balances sfrom - v)
      let b2 := updFn b1 sto (b1 sto + v)
      let s5 := { s4 with balances := b2 }
      let rf := s5.staked_balances sfrom
      let s6 := setRecord s5 sfrom { rf with available := rf.available - v }
      let rt := s6.staked_balances sto
      let s7 := setRecord s6 sto { rt with available := rt.available + v }
      let s8 := if sto ∈ s7.addresses then s7 else { s7 with addresses := s7.addresses ++ [sto] }
      .ok s8

/-- The part of `_transfer` executed after the `tokenFallback` hook: the appends
to the active balance-change buffer (source lines 375-380). -/
def transferPhase2 (s : State) (sfrom sto : Addr) : State :=
  if ¬s.switch_divs_to_staked_tap_enabled then
    let t1 := if sfrom ∈ s.blacklist_address then s
      else setChanges s s.address_update_db (getChanges s s.address_update_db ++ [sfrom])
    if sto ∈ t1.blacklist_address then t1
    else setChanges t1 t1.address_update_db (getChanges t1 t1.address_update_db ++ [sto])
  else s

/-- `_transfer` (source lines 342-381): phase 1, then the `tokenFallback` hook
when the recipient is a contract (no ledger mutation), then phase 2. -/
def transferInternal (s : State) (now : Int) (sfrom sto : Addr) (v : Int) : Except Err State :=
  match transferPhase1 s now sfrom sto v with
  | .error e => .error e
  | .ok s8 => .ok (transferPhase2 s8 sfrom sto)

/-- The external `transfer` entry point (source lines 331-340). -/
def transfer (s : State) (sender : Addr) (now : Int) (sto : Addr) (v : Int) : Except Err State :=
  if s.paused ∧ sender ∉ s.pause_whitelist then .error .pausedErr
  else if sender ∈ s.locklist then .error .locked
  else transferInternal s now sender sto v

/-- `set_minimum_stake` (source lines 398-409). -/
def set_minimum_stake (s : State) (sender : Addr) (amount : Int) : Except Err State :=
  if sender ≠ s.owner then .error .onlyOwner
  else if amount < 0 then .error .negativeValue
  else .ok { s with minimum_stake := amount * 10 ^ s.decimals.toNat }

def DAY_TO_MICROSECOND : Int := 864 * 10 ^ 8

/-- `set_unstaking_period` (source lines 411-421). -/
def set_unstaking_period (s : State) (sender : Addr) (t : Int) : Except Err State :=
  if sender ≠ s.owner then .error .onlyOwner
  else if t < 0 then .error .negativeValue
  else .ok { s with unstaking_period := t * DAY_TO_MICROSECOND }

/-- `set_max_loop` (source lines 423-431). -/
def set_max_loop (s : State) (sender : Addr) (loops : Int) : Except Err State :=
  if sender ≠ s.owner then .error .onlyOwner
  else .ok { s with max_loop := loops }

/-- `set_dividends_score` (source lines 457-465). -/
def set_dividends_score (s : State) (sender : Addr) (score : Addr) : Except Err State :=
  if sender ≠ s.owner then .error .onlyOwner
  else .ok { s with dividends_score := some score }

/-- `get_balance_updates` (source lines 476-500): returns the mutated state and
the page of `(address, balance)` pairs. -/
def get_balance_updates (s : State) (sender : Addr) : Except Err (State × List (Addr × Int)) :=
  if s.dividends_score ≠ some sender then .error .onlyDividends
  else
    let balance_changes := getChanges s s.balance_update_db
    let length_list : Int := balance_changes.length
    let start := s.index_update_balance
    if start = length_list then
      if s.balance_update_db ≠ s.address_update_db then
        .ok ({ s with balance_update_db := s.address_update_db,
                      index_update_balance := s.index_address_changes }, [])
      else .ok (s, [])
    else
      let stop := min (start + s.max_loop) length_list
      let page := buildPage (pageAddrs balance_changes start stop) s.balances
      .ok ({ s with index_update_balance := stop }, page)

/-- `clear_yesterdays_changes` (source lines 502-521). -/
def clear_yesterdays_changes (s : State) (sender : Addr) : Except Err (State × Bool) :=
  if s.dividends_score ≠ some sender then .error .onlyDividends
  else
    let yesterday := (s.address_update_db + 1) % 2
    let l := getChanges s yesterday
    let length_list : Int := l.length
    if length_list = 0 then .ok (s, true)
    else
      let loop_count := min length_list s.max_loop
      let l2 := l.take (length_list - loop_count).toNat
      .ok (setChanges s yesterday l2, l2.length = 0)

/-- `remove_from_blacklist` (source lines 535-552): note the whole body is
guarded by `if self.msg.sender == self.owner:` with no else branch, so a
non-owner call completes successfully without touching state. -/
def remove_from_blacklist (s : State) (sender : Addr) (a : Addr) : Except Err State :=
  if sender = s.owner then
    if a ∉ s.blacklist_address then .error .notInList
    else .ok { s with blacklist_address := swapRemove s.blacklist_address a }
  else .ok s

/-- `set_blacklist_address` (source lines 554-566): the same silent non-owner
no-op shape as `remove_from_blacklist`. -/
def set_blacklist_address (s : State) (sender : Addr) (a : Addr) : Except Err State :=
  if sender = s.owner then
    if a ∉ s.blacklist_address then .ok { s with blacklist_address := s.blacklist_address ++ [a] }
    else .ok s
  else .ok s

/-- `switch_address_update_db` (source lines 568-578). -/
def switch_address_update_db (s : State) (sender : Addr) : Except Err State :=
  if s.dividends_score ≠ some sender then .error .onlyDividends
  else
    let new_day := (s.address_update_db + 1) % 2
    .ok { s with address_update_db := new_day,
                 index_address_changes := (getChanges s new_day).length }

/-- `get_stake_updates` (source lines 580-604). -/
def get_stake_updates (s : State) (sender : Addr) : Except Err (State × List (Addr × Int)) :=
  if s.dividends_score ≠ some sender then .error .onlyDividends
  else if ¬s.staking_enabled then .error .stakingNotEnabled
  else if ¬s.switch_divs_to_staked_tap_enabled then .error .switchDivsNotEnabled
  else
    let stake_changes := getStakeChanges s s.stake_update_db
    let length_list : Int := stake_changes.length
    let start := s.index_stake_changes
    if start = length_list then .ok (s, [])
    else
      let stop := min (start + s.max_loop) length_list
      let page := buildPage (pageAddrs stake_changes start stop)
        (fun a => (s.staked_balances a).staked)
      .ok ({ s with index_stake_changes := stop }, page)

/-- `switch_stake_update_db` (source lines 606-615). -/
def switch_stake_update_db (s : State) (sender : Addr) : Except Err State :=
  if s.dividends_score ≠ some sender then .error .onlyDividends
  else if ¬s.staking_enabled then .error .stakingNotEnabled
  else if ¬s.switch_divs_to_staked_tap_enabled then .error .switchDivsNotEnabled
  else
    let new_day := (s.stake_update_db + 1) % 2
    .ok { s with stake_update_db := new_day,
                 index_stake_changes := (getStakeChanges s new_day).length }

/-- `clear_yesterdays_stake_changes` (source lines 617-634): the guards run in
the order staking-enabled, switch-divs-enabled, dividends-only. -/
def clear_yesterdays_stake_changes (s : State) (sender : Addr) : Except Err (State × Bool) :=
  if ¬s.staking_enabled then .error .stakingNotEnabled
  else if ¬s.switch_divs_to_staked_tap_enabled then .error .switchDivsNotEnabled
  else if s.dividends_score ≠ some sender then .error .onlyDividends
  else
    let yesterday := (s.stake_update_db + 1) % 2
    let l := getStakeChanges s yesterday
    let length_list : Int := l.length
    if length_list = 0 then .ok (s, true)
    else
      let loop_count := min length_list s.max_loop
      let l2 := l.take (length_list - loop_count).toNat
      .ok (setStakeChanges s yesterday l2, l2.length = 0)

/-- `remove_from_locklist` (source lines 648-665). -/
def remove_from_locklist (s : State) (sender : Addr) (a : Addr) : Except Err State :=
  if sender ≠ s.owner then .error .onlyOwner
  else if a ∉ s.locklist then .error .notInList
  else .ok { s with locklist := swapRemove s.locklist a }

/-- `set_locklist_address` (source lines 667-693). -/
def set_locklist_address (s : State) (sender : Addr) (now : Int) (a : Addr) : Except Err State :=
  if sender ≠ s.owner then .error .onlyOwner
  else if ¬s.staking_enabled then .error .stakingNotEnabled
  else
    let s1 := if a ∈ s.locklist then s else { s with locklist := s.locklist ++ [a] }
    let staked_balance := (s1.staked_balances a).staked
    if staked_balance > 0 then
      let s2 := makeAvailable s1 now a
      let r := s2.staked_balances a
      let s3 := setRecord s2 a
        { r with staked := 0, unstaking := r.unstaking + staked_balance,
                 unstakingPeriod := now + s2.unstaking_period }
      let s4 := { s3 with total_staked_balance := s3.total_staked_balance - staked_balance }
      .ok (putStakeChange s4 a)
    else .ok s1

/-- `remove_from_whitelist` (source lines 707-724). -/
def remove_from_whitelist (s : State) (sender : Addr) (a : Addr) : Except Err State :=
  if sender ≠ s.owner then .error .onlyOwner
  else if a ∉ s.pause_whitelist then .error .notInList
  else .ok { s with pause_whitelist := swapRemove s.pause_whitelist a }

/-- `set_whitelist_address` (source lines 726-738). -/
def set_whitelist_address (s : State) (sender : Addr) (a : Addr) : Except Err State :=
  if sender ≠ s.owner then .error .onlyOwner
  else if a ∉ s.pause_whitelist then .ok { s with pause_whitelist := s.pause_whitelist ++ [a] }
  else .ok s

/-- The alphabet of state-mutating external entry points (read-only externals
mutate nothing and are omitted). -/
inductive Op where
  | untetherOp (sender : Addr)
  | toggleStakingOp (sender : Addr)
  | toggleSwitchDivsOp (sender : Addr)
  | togglePausedOp (sender : Addr)
  | stakeOp (sender : Addr) (now v : Int)
  | transferOp (sender : Addr) (now : Int) (sto : Addr) (v : Int)
  | setMinimumStakeOp (sender : Addr) (amount : Int)
  | setUnstakingPeriodOp (sender : Addr) (t : Int)
  | setMaxLoopOp (sender : Addr) (loops : Int)
  | setDividendsScoreOp (sender : Addr) (score : Addr)
  | getBalanceUpdatesOp (sender : Addr)
  | clearYesterdaysChangesOp (sender : Addr)
  | removeFromBlacklistOp (sender : Addr) (a : Addr)
  | setBlacklistAddressOp (sender : Addr) (a : Addr)
  | switchAddressUpdateDbOp (sender : Addr)
  | getStakeUpdatesOp (sender : Addr)
  | switchStakeUpdateDbOp (sender : Addr)
  | clearYesterdaysStakeChangesOp (sender : Addr)
  | removeFromLocklistOp (sender : Addr) (a : Addr)
  | setLocklistAddressOp (sender : Addr) (now : Int) (a : Addr)
  | removeFromWhitelistOp (sender : Addr) (a : Addr)
  | setWhitelistAddressOp (sender : Addr) (a : Addr)
deriving DecidableEq, Repr

/-- The state transition of each operation. -/
def apply (op : Op) (s : State) : Except Err State :=
  match op with
  | .untetherOp sender => untether s sender
  | .toggleStakingOp sender => toggle_staking_enabled s sender
  | .toggleSwitchDivsOp sender => toggle_switch_divs_to_staked_tap_enabled s sender
  | .togglePausedOp sender => togglePaused s sender
  | .stakeOp sender now v => stake s sender now v
  | .transferOp sender now sto v => transfer s sender now sto v
  | .setMinimumStakeOp sender amount => set_minimum_stake s sender amount
  | .setUnstakingPeriodOp sender t => set_unstaking_period s sender t
  | .setMaxLoopOp sender loops => set_max_loop s sender loops
  | .setDividendsScoreOp sender score => set_dividends_score s sender score
  | .getBalanceUpdatesOp sender => (get_balance_updates s sender).map Prod.fst
  | .clearYesterdaysChangesOp sender => (clear_yesterdays_changes s sender).map Prod.fst
  | .removeFromBlacklistOp sender a => remove_from_blacklist s sender a
  | .setBlacklistAddressOp sender a => set_blacklist_address s sender a
  | .switchAddressUpdateDbOp sender => switch_address_update_db s sender
  | .getStakeUpdatesOp sender => (get_stake_updates s sender).map Prod.fst
  | .switchStakeUpdateDbOp sender => switch_stake_update_db s sender
  | .clearYesterdaysStakeChangesOp sender => (clear_yesterdays_stake_changes s sender).map Prod.fst
  | .removeFromLocklistOp sender a => remove_from_locklist s sender a
  | .setLocklistAddressOp sender now a => set_locklist_address s sender now a
  | .removeFromWhitelistOp sender a => remove_from_whitelist s sender a
  | .setWhitelistAddressOp sender a => set_whitelist_address s sender a

/-- The state after an operation: the new state on success, the unchanged state
on revert. -/
def post (op : Op) (s : State) : State :=
  match apply op s with
  | .ok s2 => s2
  | .error _ => s

/-- States reachable from a fresh installation by any sequence of completed
operations. -/
inductive ReachAny : State → Prop where
  | install (owner : Addr) (i d : Int) (s : State) :
      on_install owner i d = .ok s → ReachAny s
  | step (s s2 : State) (op : Op) :
      ReachAny s → apply op s = .ok s2 → ReachAny s2

/-- States reachable from a fresh installation by completed `transfer` calls
alone. -/
inductive ReachTx : State → Prop where
  | install (owner : Addr) (i d : Int) (s : State) :
      on_install owner i d = .ok s → ReachTx s
  | step (s s2 : State) (sender : Addr) (now : Int) (sto : Addr) (v : Int) :
      ReachTx s → transfer s sender now sto v = .ok s2 → ReachTx s2

/-- The staking reconciliation property of one account: once migrated into
staking accounting (`first_time` false), the three staking slots sum to the
total balance. -/
def reconciled (s : State) (a : Addr) : Prop :=
  ¬first_time s a →
    (s.staked_balances a).available + (s.staked_balances a).staked +
      (s.staked_balances a).unstaking = s.balances a

/-! Concrete addresses and states used by witnesses and counterexamples. -/

/-- The installing owner. -/
def A0 : Addr := ⟨0, false⟩
/-- The registered dividends-distribution contract caller. -/
def A1 : Addr := ⟨1, false⟩
/-- An ordinary user account. -/
def A2 : Addr := ⟨2, false⟩
/-- Another ordinary user account. -/
def A3 : Addr := ⟨3, false⟩
/-- A contract-flagged recipient. -/
def A4 : Addr := ⟨4, true⟩

/-- A baseline state: owner `A0`, every collection empty, every scalar zero. -/
def S0 : State where
  owner := A0
  total_supply := 0
  decimals := 0
  addresses := []
  balances := fun _ => 0
  even_day_changes := []
  odd_day_changes := []
  max_loop := 0
  index_update_balance := 0
  index_address_changes := 0
  balance_update_db := 0
  address_update_db := 0
  dividends_score := none
  blacklist_address := []
  staked_balances := fun _ => StakeRecord.zero
  minimum_stake := 0
  unstaking_period := 0
  total_staked_balance := 0
  even_day_stake_changes := []
  odd_day_stake_changes := []
  stake_update_db := 0
  index_stake_changes := 0
  staking_enabled := false
  switch_divs_to_staked_tap_enabled := false
  paused := false
  pause_whitelist := []
  locklist := []

/-- Flip counterexample state: buffer 0 is active with two recorded addresses,
buffer 1 is empty, and the saved offset holds a sentinel value 7. -/
def SC4 : State :=
  { S0 with dividends_score := some A1, address_update_db := 0,
            even_day_changes := [A2, A3], odd_day_changes := [],
            index_address_changes := 7 }

/-- Flip witness state: `SC4` with staking and the dividends switch enabled. -/
def SW4 : State :=
  { SC4 with staking_enabled := true, switch_divs_to_staked_tap_enabled := true,
             even_day_stake_changes := [A2], odd_day_stake_changes := [] }

/-- Stake witness state: staking enabled, minimum stake 10, unstaking period
100 microseconds, and 50 TAP in `A2`'s (not yet migrated) balance. -/
def SW3 : State :=
  { S0 with staking_enabled := true, minimum_stake := 10, unstaking_period := 100,
            balances := updFn (fun _ => 0) A2 50 }

/-- Drain counterexample state: the active balance-change buffer holds the same
address twice and the cursor sits at its start. -/
def SC5 : State :=
  { S0 with dividends_score := some A1, even_day_changes := [A2, A2], max_loop := 5,
            balances := updFn (fun _ => 0) A2 9 }

/-- Drain witness state: distinct buffered addresses, `max_loop = 1`, both
staking flags on. -/
def SW5 : State :=
  { S0 with dividends_score := some A1, even_day_changes := [A2, A3], max_loop := 1,
            staking_enabled := true, switch_divs_to_staked_tap_enabled := true,
            even_day_stake_changes := [A2], balances := updFn (fun _ => 0) A2 9 }

/-- Duplicate-append counterexample state: `A2` is already in the active
balance-change buffer and holds 10 TAP. -/
def SC6 : State :=
  { S0 with even_day_changes := [A2], balances := updFn (fun _ => 0) A2 10 }

/-- Cursor counterexample state: the drain buffer (buffer 0) is fully drained
(cursor 1 = its length) while the write selector already points at buffer 1
whose flip-time offset is 0. -/
def SC7 : State :=
  { S0 with dividends_score := some A1, even_day_changes := [A2],
            index_update_balance := 1, address_update_db := 1, index_address_changes := 0 }

/-- Hook-ordering counterexample state: `A2` holds 5 TAP; `A4` is a contract. -/
def SC8 : State :=
  { S0 with balances := updFn (fun _ => 0) A2 5 }

/-- The state produced by `on_install A0 1000 2`: total supply
`1000 * 10 ^ 2 = 100000`, all of it on the owner's account. -/
def SInstall : State :=
  { S0 with total_supply := 100000, decimals := 2,
            addresses := [A0], balances := updFn (fun _ => 0) A0 100000 }

/-- The operation is the balance-dimension day-boundary flip. -/
def isBalanceFlip : Op → Prop
  | .switchAddressUpdateDbOp _ => True
  | _ => False

/-- The operation is the stake-dimension day-boundary flip. -/
def isStakeFlip : Op → Prop
  | .switchStakeUpdateDbOp _ => True
  | _ => False

/-- The operation is a balance drain whose call on `s` takes the auto-advance
branch: an authorized `get_balance_updates` with the cursor at the end of the
drain buffer and the drain selector differing from the active-write selector
(source lines 489-492). -/
def isBalanceAutoAdvance (op : Op) (s : State) : Prop :=
  match op with
  | .getBalanceUpdatesOp sender =>
      s.dividends_score = some sender ∧
      s.index_update_balance = ((getChanges s s.balance_update_db).length : Int) ∧
      s.balance_update_db ≠ s.address_update_db
  | _ => False

/-! Projection lemmas for the state helpers. -/

@[simp] theorem setRecord_staked_self (s : State) (a : Addr) (r : StakeRecord) :
    (setRecord s a r).staked_balances a = r := by
  simp [setRecord]

theorem setRecord_staked_ne (s : State) (a x : Addr) (r : StakeRecord) (h : x ≠ a) :
    (setRecord s a r).staked_balances x = s.staked_balances x := by
  simp [setRecord, h]

@[simp] theorem check_first_time_locklist (s : State) (a : Addr) :
    (check_first_time s a).locklist = s.locklist := by
  unfold check_first_time; split <;> rfl

@[simp] theorem check_first_time_balances (s : State) (a : Addr) :
    (check_first_time s a).balances = s.balances := by
  unfold check_first_time; split <;> rfl

@[simp] theorem check_first_time_unstaking_period (s : State) (a : Addr) :
    (check_first_time s a).unstaking_period = s.unstaking_period := by
  unfold check_first_time; split <;> rfl

@[simp] theorem check_first_time_total_staked (s : State) (a : Addr) :
    (check_first_time s a).total_staked_balance = s.total_staked_balance := by
  unfold check_first_time; split <;> rfl

@[simp] theorem check_first_time_staked (s : State) (a x : Addr) :
    ((check_first_time s a).staked_balances x).staked = (s.staked_balances x).staked := by
  unfold check_first_time; split
  · by_cases h : x = a
    · subst h; simp [setRecord]
    · rw [setRecord_staked_ne _ _ _ _ h]
  · rfl

@[simp] theorem makeAvailable_locklist (s : State) (now : Int) (a : Addr) :
    (makeAvailable s now a).locklist = s.locklist := by
  unfold makeAvailable; dsimp only; split <;> rfl

@[simp] theorem makeAvailable_balances (s : State) (now : Int) (a : Addr) :
    (makeAvailable s now a).balances = s.balances := by
  unfold makeAvailable; dsimp only; split <;> rfl

@[simp] theorem makeAvailable_unstaking_period (s : State) (now : Int) (a : Addr) :
    (makeAvailable s now a).unstaking_period = s.unstaking_period := by
  unfold makeAvailable; dsimp only; split <;> rfl

@[simp] theorem makeAvailable_total_staked (s : State) (now : Int) (a : Addr) :
    (makeAvailable s now a).total_staked_balance = s.total_staked_balance := by
  unfold makeAvailable; dsimp only; split <;> rfl

@[simp] theorem makeAvailable_staked (s : State) (now : Int) (a x : Addr) :
    ((makeAvailable s now a).staked_balances x).staked = (s.staked_balances x).staked := by
  unfold makeAvailable; dsimp only; split
  · by_cases h : x = a
    · subst h; simp [setRecord]
    · rw [setRecord_staked_ne _ _ _ _ h]
  · rfl

@[simp] theorem putStakeChange_staked_balances (s : State) (a : Addr) :
    (putStakeChange s a).staked_balances = s.staked_balances := by
  unfold putStakeChange setStakeChanges; split
  · rfl
  · split <;> rfl

@[simp] theorem putStakeChange_total_staked (s : State) (a : Addr) :
    (putStakeChange s a).total_staked_balance = s.total_staked_balance := by
  unfold putStakeChange setStakeChanges; split
  · rfl
  · split <;> rfl

@[simp] theorem putStakeChange_balances (s : State) (a : Addr) :
    (putStakeChange s a).balances = s.balances := by
  unfold putStakeChange setStakeChanges; split
  · rfl
  · split <;> rfl

/-!  Claim theorems. -/

/-- C10: while the staking-enabled flag is false, `set_locklist_address` always
fails (with the staking-must-be-enabled error when the caller is the owner, and
with the owner-only error otherwise), so no address can be locklisted; a
reverted call leaves the state unchanged by construction of the model. -/
theorem tap_locklist_requires_staking (s : State) (sender : Addr) (now : Int) (a : Addr)
    (h : s.staking_enabled = false) :
    (∃ e, set_locklist_address s sender now a = .error e) ∧
    (sender = s.owner → set_locklist_address s sender now a = .error .stakingNotEnabled) ∧
    post (Op.setLocklistAddressOp sender now a) s = s := by
  unfold set_locklist_address post apply
  by_cases hs : sender = s.owner <;> simp [set_locklist_address, hs, h]

theorem tap_locklist_requires_staking_witness :
    (∃ e, set_locklist_address S0 A0 0 A2 = .error e) ∧
    (A0 = S0.owner → set_locklist_address S0 A0 0 A2 = .error .stakingNotEnabled) ∧
    post (Op.setLocklistAddressOp A0 0 A2) S0 = S0 :=
  tap_locklist_requires_staking S0 A0 0 A2 rfl

/-- C9 counterexample: `set_blacklist_address` called by the non-owner `A2`
does not fail with an Unauthorized error — it completes successfully as a
silent no-op (the whole body sits under `if self.msg.sender == self.owner:`
with no else branch), contradicting the claim that every owner-only
configuration operation reverts for a non-owner caller. -/
theorem tap_owner_only_cex :
    set_blacklist_address S0 A2 A3 = .ok S0 ∧ remove_from_blacklist S0 A2 A3 = .ok S0 ∧
    A2 ≠ S0.owner := by
  refine ⟨rfl, rfl, by decide⟩

/-- C9 amended: every owner-only configuration operation called by a non-owner
leaves the ledger state unchanged; all of them revert with the Unauthorized
error except the blacklist add/remove pair, which complete successfully as
silent no-ops. -/
theorem tap_owner_only_amended (s : State) (sender : Addr) (amount t loops now : Int)
    (score a : Addr) (hs : sender ≠ s.owner) :
    set_minimum_stake s sender amount = .error .onlyOwner ∧
    set_unstaking_period s sender t = .error .onlyOwner ∧
    set_max_loop s sender loops = .error .onlyOwner ∧
    set_dividends_score s sender score = .error .onlyOwner ∧
    toggle_staking_enabled s sender = .error .onlyOwner ∧
    toggle_switch_divs_to_staked_tap_enabled s sender = .error .onlyOwner ∧
    togglePaused s sender = .error .onlyOwner ∧
    set_locklist_address s sender now a = .error .onlyOwner ∧
    remove_from_locklist s sender a = .error .onlyOwner ∧
    set_whitelist_address s sender a = .error .onlyOwner ∧
    remove_from_whitelist s sender a = .error .onlyOwner ∧
    set_blacklist_address s sender a = .ok s ∧
    remove_from_blacklist s sender a = .ok s := by
  simp [set_minimum_stake, set_unstaking_period, set_max_loop, set_dividends_score,
    toggle_staking_enabled, toggle_switch_divs_to_staked_tap_enabled, togglePaused,
    set_locklist_address, remove_from_locklist, set_whitelist_address,
    remove_from_whitelist, set_blacklist_address, remove_from_blacklist, hs]

theorem tap_owner_only_amended_witness :
    set_minimum_stake S0 A2 5 = .error .onlyOwner ∧
    set_unstaking_period S0 A2 3 = .error .onlyOwner ∧
    set_max_loop S0 A2 7 = .error .onlyOwner ∧
    set_dividends_score S0 A2 A1 = .error .onlyOwner ∧
    toggle_staking_enabled S0 A2 = .error .onlyOwner ∧
    toggle_switch_divs_to_staked_tap_enabled S0 A2 = .error .onlyOwner ∧
    togglePaused S0 A2 = .error .onlyOwner ∧
    set_locklist_address S0 A2 0 A3 = .error .onlyOwner ∧
    remove_from_locklist S0 A2 A3 = .error .onlyOwner ∧
    set_whitelist_address S0 A2 A3 = .error .onlyOwner ∧
    remove_from_whitelist S0 A2 A3 = .error .onlyOwner ∧
    set_blacklist_address S0 A2 A3 = .ok S0 ∧
    remove_from_blacklist S0 A2 A3 = .ok S0 :=
  tap_owner_only_amended S0 A2 5 3 7 0 A1 A3 (by decide)

/-- C4 counterexample: in `SC4` buffer 0 is active with 2 entries and buffer 1
is empty.  The flip succeeds (it overwrites the sentinel offset 7), toggles the
selector to 1, and sets the start-offset to 0 — the length of the newly
activated buffer 1 — and not to 2, the length at flip time of the now-previous
buffer 0 that was active before the flip, contradicting the claim. -/
theorem tap_flip_offset_cex :
    (post (Op.switchAddressUpdateDbOp A1) SC4).address_update_db = 1 ∧
    (post (Op.switchAddressUpdateDbOp A1) SC4).index_address_changes = 0 ∧
    SC4.index_address_changes = 7 ∧
    (getChanges SC4 SC4.address_update_db).length = 2 := by
  decide

/-- C4 amended: for each dimension the day-boundary flip toggles the
active-buffer selector and sets the pagination start-offset to the length, at
the moment of the flip, of the buffer that becomes active (the buffer that was
previous before the flip), so that only entries appended to that buffer after
the flip are later delivered. -/
theorem tap_flip_offset_amended (s : State) (sender : Addr)
    (hd : s.dividends_score = some sender) :
    (∃ s2, switch_address_update_db s sender = .ok s2 ∧
      s2.address_update_db = (s.address_update_db + 1) % 2 ∧
      s2.index_address_changes = (getChanges s ((s.address_update_db + 1) % 2)).length) ∧
    (s.staking_enabled = true → s.switch_divs_to_staked_tap_enabled = true →
      ∃ s2, switch_stake_update_db s sender = .ok s2 ∧
        s2.stake_update_db = (s.stake_update_db + 1) % 2 ∧
        s2.index_stake_changes = (getStakeChanges s ((s.stake_update_db + 1) % 2)).length) := by
  constructor
  · refine ⟨{ s with address_update_db := (s.address_update_db + 1) % 2, index_address_changes := (getChanges s ((s.address_update_db + 1) % 2)).length }, ?_, rfl, rfl⟩
    simp [switch_address_update_db, hd]
  · intro h1 h2
    refine ⟨{ s with stake_update_db := (s.stake_update_db + 1) % 2, index_stake_changes := (getStakeChanges s ((s.stake_update_db + 1) % 2)).length }, ?_, rfl, rfl⟩
    simp [switch_stake_update_db, hd, h1, h2]

theorem tap_flip_offset_amended_witness :
    (∃ s2, switch_address_update_db SW4 A1 = .ok s2 ∧
      s2.address_update_db = (SW4.address_update_db + 1) % 2 ∧
      s2.index_address_changes = (getChanges SW4 ((SW4.address_update_db + 1) % 2)).length) ∧
    (SW4.staking_enabled = true → SW4.switch_divs_to_staked_tap_enabled = true →
      ∃ s2, switch_stake_update_db SW4 A1 = .ok s2 ∧
        s2.stake_update_db = (SW4.stake_update_db + 1) % 2 ∧
        s2.index_stake_changes = (getStakeChanges SW4 ((SW4.stake_update_db + 1) % 2)).length) :=
  tap_flip_offset_amended SW4 A1 rfl

/-- C3: under the stake preconditions, `stake(value)` completes and — with
`r1` the caller's staking record after first-touch migration and settlement of
matured unstaking, so that `old_target = r1.staked + r1.unstaking` — leaves
`staked = value`; `unstaking = old_target - value` if `value ≤ old_target` and
`0` otherwise (the prior unstaking amount is replaced); `available` decreased
by `value - old_target` exactly when `value > old_target`; the unlock time set
to `now + unstaking_period`; and the global total-staked counter changed by
`value` minus the previously staked amount. -/
theorem tap_stake_spec (s : State) (sender : Addr) (now v : Int) (r1 : StakeRecord)
    (hr1 : r1 = (makeAvailable (check_first_time s sender) now sender).staked_balances sender)
    (hEn : s.staking_enabled = true) (h0 : 0 ≤ v) (hBal : v ≤ s.balances sender)
    (hMin : v = 0 ∨ s.minimum_stake ≤ v) (hLock : sender ∉ s.locklist) :
    ∃ s2, stake s sender now v = .ok s2 ∧
      (s2.staked_balances sender).staked = v ∧
      (s2.staked_balances sender).unstaking =
        (if v ≤ r1.staked + r1.unstaking then r1.staked + r1.unstaking - v else 0) ∧
      (s2.staked_balances sender).available =
        (if r1.staked + r1.unstaking < v then r1.available - (v - (r1.staked + r1.unstaking))
         else r1.available) ∧
      (s2.staked_balances sender).unstakingPeriod = now + s.unstaking_period ∧
      s2.total_staked_balance = s.total_staked_balance + (v - (s.staked_balances sender).staked) := by
  have h1 : ¬(v < 0) := not_lt.mpr h0
  have h2 : ¬(v > s.balances sender) := not_lt.mpr hBal
  have h3 : ¬(v < s.minimum_stake ∧ v ≠ 0) := by
    rcases hMin with h | h
    · simp [h]
    · exact fun hc => absurd hc.1 (not_lt.mpr h)
  have hlock2 : sender ∉ (makeAvailable (check_first_time s sender) now sender).locklist := by
    simpa using hLock
  unfold stake
  rw [if_neg (by simp [hEn]), if_neg h1, if_neg h2, if_neg h3]
  dsimp only
  rw [if_neg hlock2]
  refine ⟨_, rfl, ?_, ?_, ?_, ?_⟩
  · simp
  · subst hr1
    by_cases hvo : v ≤ ((makeAvailable (check_first_time s sender) now sender).staked_balances sender).staked +
        ((makeAvailable (check_first_time s sender) now sender).staked_balances sender).unstaking
    · simp only [putStakeChange_staked_balances, setRecord_staked_self, makeAvailable_staked,
        check_first_time_staked] at hvo ⊢
      rw [if_neg (not_lt.mpr hvo), if_pos hvo]
    · simp only [putStakeChange_staked_balances, setRecord_staked_self, makeAvailable_staked,
        check_first_time_staked] at hvo ⊢
      rw [if_pos (lt_of_not_le hvo), if_neg hvo]
  · subst hr1
    simp only [putStakeChange_staked_balances, setRecord_staked_self]
  · constructor
    · simp
    · simp [setRecord, add_comm]

theorem tap_stake_spec_witness :
    ∃ s2, stake SW3 A2 5 20 = .ok s2 ∧
      (s2.staked_balances A2).staked = 20 ∧
      (s2.staked_balances A2).unstaking = (if (20 : Int) ≤ 0 + 0 then 0 + 0 - 20 else 0) ∧
      (s2.staked_balances A2).available =
        (if (0 : Int) + 0 < 20 then 50 - (20 - (0 + 0)) else 50) ∧
      (s2.staked_balances A2).unstakingPeriod = 5 + SW3.unstaking_period ∧
      s2.total_staked_balance = SW3.total_staked_balance + (20 - (SW3.staked_balances A2).staked) :=
  tap_stake_spec SW3 A2 5 20 ⟨50, 0, 0, 0⟩ (by decide) rfl (by decide) (by decide)
    (Or.inr (by decide)) (by decide)

theorem dictInsert_length_le (l : List (Addr × Int)) (k : Addr) (v : Int) :
    (dictInsert l k v).length ≤ l.length + 1 := by
  induction l with
  | nil => simp [dictInsert]
  | cons p rest ih =>
    unfold dictInsert
    split
    · simp
    · simpa using Nat.succ_le_succ ih

theorem buildPage_aux (f : Addr → Int) (l : List Addr) (d : List (Addr × Int)) :
    (l.foldl (fun d a => dictInsert d a (f a)) d).length ≤ d.length + l.length := by
  induction l generalizing d with
  | nil => simp
  | cons a rest ih =>
    calc (List.foldl (fun d a => dictInsert d a (f a)) (dictInsert d a (f a)) rest).length
        ≤ (dictInsert d a (f a)).length + rest.length := ih _
      _ ≤ d.length + 1 + rest.length := by
          exact Nat.add_le_add_right (dictInsert_length_le d a (f a)) _
      _ = d.length + (rest.length + 1) := by omega

/-- A Python dict built from `n` keys has at most `n` entries. -/
theorem buildPage_length_le (l : List Addr) (f : Addr → Int) :
    (buildPage l f).length ≤ l.length := by
  simpa using buildPage_aux f l []

theorem pageAddrs_length (buf : List Addr) (start stop : Int) :
    (pageAddrs buf start stop).length = (stop - start).toNat := by
  simp [pageAddrs]

/-- C5 counterexample: in `SC5` the drain buffer holds the address `A2` twice
and the cursor is 0.  The drain returns a single `(A2, 9)` pair (Python dict
keys collapse the duplicate) yet advances the cursor by 2, contradicting the
claim that the cursor advances by exactly the number of pairs returned. -/
theorem tap_drain_advance_cex :
    ∃ s2 page, get_balance_updates SC5 A1 = .ok (s2, page) ∧
      page.length = 1 ∧ SC5.index_update_balance = 0 ∧ s2.index_update_balance = 2 := by
  refine ⟨_, _, rfl, ?_, ?_, ?_⟩ <;> decide

/-- C5 amended: `get_balance_updates` returns the Python-dict page built from
the drain buffer entries between the cursor and
`min(cursor + max_loop, length)`, and advances the cursor to that bound — by
the number of buffer entries consumed, which is an upper bound on (and, for
duplicate-free consumed entries, equal to) the number of pairs returned; when
the cursor equals the buffer length it returns an empty page, auto-advancing
the drain bookkeeping to the flipped buffer and its saved offset if and only
if the drain selector differs from the active-write selector; the
stake-dimension drain behaves the same but never auto-advances. -/
theorem tap_drain_spec_amended (s : State) (sender : Addr)
    (hd : s.dividends_score = some sender) :
    (s.index_update_balance = ((getChanges s s.balance_update_db).length : Int) →
      (s.balance_update_db ≠ s.address_update_db →
        get_balance_updates s sender =
          .ok ({ s with balance_update_db := s.address_update_db, index_update_balance := s.index_address_changes }, [])) ∧
      (s.balance_update_db = s.address_update_db → get_balance_updates s sender = .ok (s, []))) ∧
    (s.index_update_balance ≠ ((getChanges s s.balance_update_db).length : Int) →
      get_balance_updates s sender =
        .ok ({ s with index_update_balance := min (s.index_update_balance + s.max_loop) ((getChanges s s.balance_update_db).length : Int) },
          buildPage (pageAddrs (getChanges s s.balance_update_db) s.index_update_balance (min (s.index_update_balance + s.max_loop) ((getChanges s s.balance_update_db).length : Int))) s.balances) ∧
      (buildPage (pageAddrs (getChanges s s.balance_update_db) s.index_update_balance (min (s.index_update_balance + s.max_loop) ((getChanges s s.balance_update_db).length : Int))) s.balances).length ≤
        (min (s.index_update_balance + s.max_loop) ((getChanges s s.balance_update_db).length : Int) - s.index_update_balance).toNat) ∧
    (s.staking_enabled = true → s.switch_divs_to_staked_tap_enabled = true →
      (s.index_stake_changes = ((getStakeChanges s s.stake_update_db).length : Int) →
        get_stake_updates s sender = .ok (s, [])) ∧
      (s.index_stake_changes ≠ ((getStakeChanges s s.stake_update_db).length : Int) →
        get_stake_updates s sender =
          .ok ({ s with index_stake_changes := min (s.index_stake_changes + s.max_loop) ((getStakeChanges s s.stake_update_db).length : Int) },
            buildPage (pageAddrs (getStakeChanges s s.stake_update_db) s.index_stake_changes (min (s.index_stake_changes + s.max_loop) ((getStakeChanges s s.stake_update_db).length : Int))) (fun a => (s.staked_balances a).staked)))) := by
  refine ⟨?_, ?_, ?_⟩
  · intro heq
    constructor
    · intro hne
      unfold get_balance_updates
      rw [if_neg (by simp [hd])]
      dsimp only
      rw [if_pos heq, if_pos hne]
    · intro he
      unfold get_balance_updates
      rw [if_neg (by simp [hd])]
      dsimp only
      rw [if_pos heq, if_neg (by simp [he])]
  · intro hne
    constructor
    · unfold get_balance_updates
      rw [if_neg (by simp [hd])]
      dsimp only
      rw [if_neg hne]
    · exact le_trans (buildPage_length_le _ _) (le_of_eq (pageAddrs_length _ _ _))
  · intro h1 h2
    constructor
    · intro heq
      unfold get_stake_updates
      rw [if_neg (by simp [hd]), if_neg (by simp [h1]), if_neg (by simp [h2])]
      dsimp only
      rw [if_pos heq]
    · intro hne
      unfold get_stake_updates
      rw [if_neg (by simp [hd]), if_neg (by simp [h1]), if_neg (by simp [h2])]
      dsimp only
      rw [if_neg hne]

theorem tap_drain_spec_amended_witness :
    (SW5.index_update_balance = ((getChanges SW5 SW5.balance_update_db).length : Int) →
      (SW5.balance_update_db ≠ SW5.address_update_db →
        get_balance_updates SW5 A1 =
          .ok ({ SW5 with balance_update_db := SW5.address_update_db, index_update_balance := SW5.index_address_changes }, [])) ∧
      (SW5.balance_update_db = SW5.address_update_db → get_balance_updates SW5 A1 = .ok (SW5, []))) ∧
    (SW5.index_update_balance ≠ ((getChanges SW5 SW5.balance_update_db).length : Int) →
      get_balance_updates SW5 A1 =
        .ok ({ SW5 with index_update_balance := min (SW5.index_update_balance + SW5.max_loop) ((getChanges SW5 SW5.balance_update_db).length : Int) },
          buildPage (pageAddrs (getChanges SW5 SW5.balance_update_db) SW5.index_update_balance (min (SW5.index_update_balance + SW5.max_loop) ((getChanges SW5 SW5.balance_update_db).length : Int))) SW5.balances) ∧
      (buildPage (pageAddrs (getChanges SW5 SW5.balance_update_db) SW5.index_update_balance (min (SW5.index_update_balance + SW5.max_loop) ((getChanges SW5 SW5.balance_update_db).length : Int))) SW5.balances).length ≤
        (min (SW5.index_update_balance + SW5.max_loop) ((getChanges SW5 SW5.balance_update_db).length : Int) - SW5.index_update_balance).toNat) ∧
    (SW5.staking_enabled = true → SW5.switch_divs_to_staked_tap_enabled = true →
      (SW5.index_stake_changes = ((getStakeChanges SW5 SW5.stake_update_db).length : Int) →
        get_stake_updates SW5 A1 = .ok (SW5, [])) ∧
      (SW5.index_stake_changes ≠ ((getStakeChanges SW5 SW5.stake_update_db).length : Int) →
        get_stake_updates SW5 A1 =
          .ok ({ SW5 with index_stake_changes := min (SW5.index_stake_changes + SW5.max_loop) ((getStakeChanges SW5 SW5.stake_update_db).length : Int) },
            buildPage (pageAddrs (getStakeChanges SW5 SW5.stake_update_db) SW5.index_stake_changes (min (SW5.index_stake_changes + SW5.max_loop) ((getStakeChanges SW5 SW5.stake_update_db).length : Int))) (fun a => (SW5.staked_balances a).staked)))) :=
  tap_drain_spec_amended SW5 A1 rfl

/-! `check_first_time` and `makeAvailable` mutate only `staked_balances`. -/

@[simp] theorem check_first_time_even_day_changes (s : State) (a : Addr) :
    (check_first_time s a).even_day_changes = s.even_day_changes := by
  unfold check_first_time; split <;> rfl

@[simp] theorem check_first_time_odd_day_changes (s : State) (a : Addr) :
    (check_first_time s a).odd_day_changes = s.odd_day_changes := by
  unfold check_first_time; split <;> rfl

@[simp] theorem check_first_time_address_update_db (s : State) (a : Addr) :
    (check_first_time s a).address_update_db = s.address_update_db := by
  unfold check_first_time; split <;> rfl

@[simp] theorem check_first_time_balance_update_db (s : State) (a : Addr) :
    (check_first_time s a).balance_update_db = s.balance_update_db := by
  unfold check_first_time; split <;> rfl

@[simp] theorem check_first_time_blacklist_address (s : State) (a : Addr) :
    (check_first_time s a).blacklist_address = s.blacklist_address := by
  unfold check_first_time; split <;> rfl

@[simp] theorem check_first_time_switch_divs_to_staked_tap_enabled (s : State) (a : Addr) :
    (check_first_time s a).switch_divs_to_staked_tap_enabled = s.switch_divs_to_staked_tap_enabled := by
  unfold check_first_time; split <;> rfl

@[simp] theorem check_first_time_addresses (s : State) (a : Addr) :
    (check_first_time s a).addresses = s.addresses := by
  unfold check_first_time; split <;> rfl

@[simp] theorem check_first_time_even_day_stake_changes (s : State) (a : Addr) :
    (check_first_time s a).even_day_stake_changes = s.even_day_stake_changes := by
  unfold check_first_time; split <;> rfl

@[simp] theorem check_first_time_odd_day_stake_changes (s : State) (a : Addr) :
    (check_first_time s a).odd_day_stake_changes = s.odd_day_stake_changes := by
  unfold check_first_time; split <;> rfl

@[simp] theorem check_first_time_stake_update_db (s : State) (a : Addr) :
    (check_first_time s a).stake_update_db = s.stake_update_db := by
  unfold check_first_time; split <;> rfl

@[simp] theorem check_first_time_index_update_balance (s : State) (a : Addr) :
    (check_first_time s a).index_update_balance = s.index_update_balance := by
  unfold check_first_time; split <;> rfl

@[simp] theorem check_first_time_index_stake_changes (s : State) (a : Addr) :
    (check_first_time s a).index_stake_changes = s.index_stake_changes := by
  unfold check_first_time; split <;> rfl

@[simp] theorem check_first_time_index_address_changes (s : State) (a : Addr) :
    (check_first_time s a).index_address_changes = s.index_address_changes := by
  unfold check_first_time; split <;> rfl

@[simp] theorem check_first_time_paused (s : State) (a : Addr) :
    (check_first_time s a).paused = s.paused := by
  unfold check_first_time; split <;> rfl

@[simp] theorem check_first_time_pause_whitelist (s : State) (a : Addr) :
    (check_first_time s a).pause_whitelist = s.pause_whitelist := by
  unfold check_first_time; split <;> rfl

@[simp] theorem check_first_time_dividends_score (s : State) (a : Addr) :
    (check_first_time s a).dividends_score = s.dividends_score := by
  unfold check_first_time; split <;> rfl

@[simp] theorem check_first_time_max_loop (s : State) (a : Addr) :
    (check_first_time s a).max_loop = s.max_loop := by
  unfold check_first_time; split <;> rfl

@[simp] theorem check_first_time_staking_enabled (s : State) (a : Addr) :
    (check_first_time s a).staking_enabled = s.staking_enabled := by
  unfold check_first_time; split <;> rfl

@[simp] theorem check_first_time_total_supply (s : State) (a : Addr) :
    (check_first_time s a).total_supply = s.total_supply := by
  unfold check_first_time; split <;> rfl

@[simp] theorem check_first_time_minimum_stake (s : State) (a : Addr) :
    (check_first_time s a).minimum_stake = s.minimum_stake := by
  unfold check_first_time; split <;> rfl

@[simp] theorem check_first_time_owner (s : State) (a : Addr) :
    (check_first_time s a).owner = s.owner := by
  unfold check_first_time; split <;> rfl

@[simp] theorem check_first_time_decimals (s : State) (a : Addr) :
    (check_first_time s a).decimals = s.decimals := by
  unfold check_first_time; split <;> rfl

@[simp] theorem makeAvailable_even_day_changes (s : State) (now : Int) (a : Addr) :
    (makeAvailable s now a).even_day_changes = s.even_day_changes := by
  unfold makeAvailable; dsimp only; split <;> rfl

@[simp] theorem makeAvailable_odd_day_changes (s : State) (now : Int) (a : Addr) :
    (makeAvailable s now a).odd_day_changes = s.odd_day_changes := by
  unfold makeAvailable; dsimp only; split <;> rfl

@[simp] theorem makeAvailable_address_update_db (s : State) (now : Int) (a : Addr) :
    (makeAvailable s now a).address_update_db = s.address_update_db := by
  unfold makeAvailable; dsimp only; split <;> rfl

@[simp] theorem makeAvailable_balance_update_db (s : State) (now : Int) (a : Addr) :
    (makeAvailable s now a).balance_update_db = s.balance_update_db := by
  unfold makeAvailable; dsimp only; split <;> rfl

@[simp] theorem makeAvailable_blacklist_address (s : State) (now : Int) (a : Addr) :
    (makeAvailable s now a).blacklist_address = s.blacklist_address := by
  unfold makeAvailable; dsimp only; split <;> rfl

@[simp] theorem makeAvailable_switch_divs_to_staked_tap_enabled (s : State) (now : Int) (a : Addr) :
    (makeAvailable s now a).switch_divs_to_staked_tap_enabled = s.switch_divs_to_staked_tap_enabled := by
  unfold makeAvailable; dsimp only; split <;> rfl

@[simp] theorem makeAvailable_addresses (s : State) (now : Int) (a : Addr) :
    (makeAvailable s now a).addresses = s.addresses := by
  unfold makeAvailable; dsimp only; split <;> rfl

@[simp] theorem makeAvailable_even_day_stake_changes (s : State) (now : Int) (a : Addr) :
    (makeAvailable s now a).even_day_stake_changes = s.even_day_stake_changes := by
  unfold makeAvailable; dsimp only; split <;> rfl

@[simp] theorem makeAvailable_odd_day_stake_changes (s : State) (now : Int) (a : Addr) :
    (makeAvailable s now a).odd_day_stake_changes = s.odd_day_stake_changes := by
  unfold makeAvailable; dsimp only; split <;> rfl

@[simp] theorem makeAvailable_stake_update_db (s : State) (now : Int) (a : Addr) :
    (makeAvailable s now a).stake_update_db = s.stake_update_db := by
  unfold makeAvailable; dsimp only; split <;> rfl

@[simp] theorem makeAvailable_index_update_balance (s : State) (now : Int) (a : Addr) :
    (makeAvailable s now a).index_update_balance = s.index_update_balance := by
  unfold makeAvailable; dsimp only; split <;> rfl

@[simp] theorem makeAvailable_index_stake_changes (s : State) (now : Int) (a : Addr) :
    (makeAvailable s now a).index_stake_changes = s.index_stake_changes := by
  unfold makeAvailable; dsimp only; split <;> rfl

@[simp] theorem makeAvailable_index_address_changes (s : State) (now : Int) (a : Addr) :
    (makeAvailable s now a).index_address_changes = s.index_address_changes := by
  unfold makeAvailable; dsimp only; split <;> rfl

@[simp] theorem makeAvailable_paused (s : State) (now : Int) (a : Addr) :
    (makeAvailable s now a).paused = s.paused := by
  unfold makeAvailable; dsimp only; split <;> rfl

@[simp] theorem makeAvailable_pause_whitelist (s : State) (now : Int) (a : Addr) :
    (makeAvailable s now a).pause_whitelist = s.pause_whitelist := by
  unfold makeAvailable; dsimp only; split <;> rfl

@[simp] theorem makeAvailable_dividends_score (s : State) (now : Int) (a : Addr) :
    (makeAvailable s now a).dividends_score = s.dividends_score := by
  unfold makeAvailable; dsimp only; split <;> rfl

@[simp] theorem makeAvailable_max_loop (s : State) (now : Int) (a : Addr) :
    (makeAvailable s now a).max_loop = s.max_loop := by
  unfold makeAvailable; dsimp only; split <;> rfl

@[simp] theorem makeAvailable_staking_enabled (s : State) (now : Int) (a : Addr) :
    (makeAvailable s now a).staking_enabled = s.staking_enabled := by
  unfold makeAvailable; dsimp only; split <;> rfl

@[simp] theorem makeAvailable_total_supply (s : State) (now : Int) (a : Addr) :
    (makeAvailable s now a).total_supply = s.total_supply := by
  unfold makeAvailable; dsimp only; split <;> rfl

@[simp] theorem makeAvailable_minimum_stake (s : State) (now : Int) (a : Addr) :
    (makeAvailable s now a).minimum_stake = s.minimum_stake := by
  unfold makeAvailable; dsimp only; split <;> rfl

@[simp] theorem makeAvailable_owner (s : State) (now : Int) (a : Addr) :
    (makeAvailable s now a).owner = s.owner := by
  unfold makeAvailable; dsimp only; split <;> rfl

@[simp] theorem makeAvailable_decimals (s : State) (now : Int) (a : Addr) :
    (makeAvailable s now a).decimals = s.decimals := by
  unfold makeAvailable; dsimp only; split <;> rfl

/-! Change-buffer manipulation lemmas. -/

theorem getStakeChanges_setStakeChanges (s : State) (i : Int) (l : List Addr) :
    getStakeChanges (setStakeChanges s i l) i = l := by
  unfold getStakeChanges setStakeChanges
  by_cases h : i = 1 <;> simp [h]

theorem putStakeChange_spec (s : State) (a : Addr) :
    getStakeChanges (putStakeChange s a) s.stake_update_db =
      getStakeChanges s s.stake_update_db ++
        (if a ∈ getStakeChanges s s.stake_update_db then [] else [a]) := by
  unfold putStakeChange
  split
  · simp
  · exact getStakeChanges_setStakeChanges _ _ _

/-- `putStakeChange` on any state agreeing with `s` on the stake buffers and
their selector appends `a` exactly when absent. -/
theorem putStakeChange_full (s : State) (a : Addr) (t : State)
    (hse : t.even_day_stake_changes = s.even_day_stake_changes)
    (hso : t.odd_day_stake_changes = s.odd_day_stake_changes)
    (hdb : t.stake_update_db = s.stake_update_db) :
    getStakeChanges (putStakeChange t a) s.stake_update_db =
      getStakeChanges s s.stake_update_db ++
        (if a ∈ getStakeChanges s s.stake_update_db then [] else [a]) := by
  have hc : ∀ i, getStakeChanges t i = getStakeChanges s i := by
    intro i; unfold getStakeChanges; rw [hse, hso]
  calc getStakeChanges (putStakeChange t a) s.stake_update_db
      = getStakeChanges (putStakeChange t a) t.stake_update_db := by rw [hdb]
    _ = getStakeChanges t t.stake_update_db ++
        (if a ∈ getStakeChanges t t.stake_update_db then [] else [a]) := putStakeChange_spec t a
    _ = _ := by rw [hc, hdb]

theorem putStakeChange_nodup (t : State) (a : Addr)
    (he : t.even_day_stake_changes.Nodup) (ho : t.odd_day_stake_changes.Nodup) :
    (putStakeChange t a).even_day_stake_changes.Nodup ∧
      (putStakeChange t a).odd_day_stake_changes.Nodup := by
  unfold putStakeChange
  split
  · exact ⟨he, ho⟩
  · rename_i hmem
    unfold setStakeChanges
    split
    · rename_i h1
      have hg : getStakeChanges t t.stake_update_db = t.odd_day_stake_changes := by
        simp [getStakeChanges, h1]
      refine ⟨he, ?_⟩
      show (getStakeChanges t t.stake_update_db ++ [a]).Nodup
      rw [hg, ← List.concat_eq_append]
      exact ho.concat (by rw [hg] at hmem; exact hmem)
    · rename_i h1
      have hg : getStakeChanges t t.stake_update_db = t.even_day_stake_changes := by
        simp [getStakeChanges, h1]
      refine ⟨?_, ho⟩
      show (getStakeChanges t t.stake_update_db ++ [a]).Nodup
      rw [hg, ← List.concat_eq_append]
      exact he.concat (by rw [hg] at hmem; exact hmem)

theorem getChanges_setChanges (s : State) (i : Int) (l : List Addr) :
    getChanges (setChanges s i l) i = l := by
  unfold getChanges setChanges
  by_cases h : i = 1 <;> simp [h]

@[simp] theorem setChanges_address_update_db (s : State) (i : Int) (l : List Addr) :
    (setChanges s i l).address_update_db = s.address_update_db := by
  unfold setChanges; split <;> rfl

@[simp] theorem setChanges_blacklist (s : State) (i : Int) (l : List Addr) :
    (setChanges s i l).blacklist_address = s.blacklist_address := by
  unfold setChanges; split <;> rfl

/-- `transferPhase2` with the dividends switch off appends the non-blacklisted
sender and recipient — unconditionally, with no membership test — to the active
balance-change buffer. -/
theorem transferPhase2_changes (t : State) (sfrom sto : Addr)
    (hsw : t.switch_divs_to_staked_tap_enabled = false) :
    getChanges (transferPhase2 t sfrom sto) t.address_update_db =
      (getChanges t t.address_update_db ++ (if sfrom ∈ t.blacklist_address then [] else [sfrom]))
        ++ (if sto ∈ t.blacklist_address then [] else [sto]) := by
  unfold transferPhase2
  rw [if_pos (by simp [hsw])]
  dsimp only
  by_cases hf : sfrom ∈ t.blacklist_address <;> by_cases ht : sto ∈ t.blacklist_address <;>
    simp [hf, ht, getChanges_setChanges]

/-! `setChanges` and `setStakeChanges` touch only their pair of buffers. -/

@[simp] theorem setChanges_owner (s : State) (i : Int) (l : List Addr) :
    (setChanges s i l).owner = s.owner := by
  unfold setChanges; split <;> rfl

@[simp] theorem setChanges_total_supply (s : State) (i : Int) (l : List Addr) :
    (setChanges s i l).total_supply = s.total_supply := by
  unfold setChanges; split <;> rfl

@[simp] theorem setChanges_decimals (s : State) (i : Int) (l : List Addr) :
    (setChanges s i l).decimals = s.decimals := by
  unfold setChanges; split <;> rfl

@[simp] theorem setChanges_addresses (s : State) (i : Int) (l : List Addr) :
    (setChanges s i l).addresses = s.addresses := by
  unfold setChanges; split <;> rfl

@[simp] theorem setChanges_balances (s : State) (i : Int) (l : List Addr) :
    (setChanges s i l).balances = s.balances := by
  unfold setChanges; split <;> rfl

@[simp] theorem setChanges_max_loop (s : State) (i : Int) (l : List Addr) :
    (setChanges s i l).max_loop = s.max_loop := by
  unfold setChanges; split <;> rfl

@[simp] theorem setChanges_index_update_balance (s : State) (i : Int) (l : List Addr) :
    (setChanges s i l).index_update_balance = s.index_update_balance := by
  unfold setChanges; split <;> rfl

@[simp] theorem setChanges_index_address_changes (s : State) (i : Int) (l : List Addr) :
    (setChanges s i l).index_address_changes = s.index_address_changes := by
  unfold setChanges; split <;> rfl

@[simp] theorem setChanges_balance_update_db (s : State) (i : Int) (l : List Addr) :
    (setChanges s i l).balance_update_db = s.balance_update_db := by
  unfold setChanges; split <;> rfl

@[simp] theorem setChanges_dividends_score (s : State) (i : Int) (l : List Addr) :
    (setChanges s i l).dividends_score = s.dividends_score := by
  unfold setChanges; split <;> rfl

@[simp] theorem setChanges_staked_balances (s : State) (i : Int) (l : List Addr) :
    (setChanges s i l).staked_balances = s.staked_balances := by
  unfold setChanges; split <;> rfl

@[simp] theorem setChanges_minimum_stake (s : State) (i : Int) (l : List Addr) :
    (setChanges s i l).minimum_stake = s.minimum_stake := by
  unfold setChanges; split <;> rfl

@[simp] theorem setChanges_unstaking_period (s : State) (i : Int) (l : List Addr) :
    (setChanges s i l).unstaking_period = s.unstaking_period := by
  unfold setChanges; split <;> rfl

@[simp] theorem setChanges_total_staked_balance (s : State) (i : Int) (l : List Addr) :
    (setChanges s i l).total_staked_balance = s.total_staked_balance := by
  unfold setChanges; split <;> rfl

@[simp] theorem setChanges_even_day_stake_changes (s : State) (i : Int) (l : List Addr) :
    (setChanges s i l).even_day_stake_changes = s.even_day_stake_changes := by
  unfold setChanges; split <;> rfl

@[simp] theorem setChanges_odd_day_stake_changes (s : State) (i : Int) (l : List Addr) :
    (setChanges s i l).odd_day_stake_changes = s.odd_day_stake_changes := by
  unfold setChanges; split <;> rfl

@[simp] theorem setChanges_stake_update_db (s : State) (i : Int) (l : List Addr) :
    (setChanges s i l).stake_update_db = s.stake_update_db := by
  unfold setChanges; split <;> rfl

@[simp] theorem setChanges_index_stake_changes (s : State) (i : Int) (l : List Addr) :
    (setChanges s i l).index_stake_changes = s.index_stake_changes := by
  unfold setChanges; split <;> rfl

@[simp] theorem setChanges_staking_enabled (s : State) (i : Int) (l : List Addr) :
    (setChanges s i l).staking_enabled = s.staking_enabled := by
  unfold setChanges; split <;> rfl

@[simp] theorem setChanges_switch_divs_to_staked_tap_enabled (s : State) (i : Int) (l : List Addr) :
    (setChanges s i l).switch_divs_to_staked_tap_enabled = s.switch_divs_to_staked_tap_enabled := by
  unfold setChanges; split <;> rfl

@[simp] theorem setChanges_paused (s : State) (i : Int) (l : List Addr) :
    (setChanges s i l).paused = s.paused := by
  unfold setChanges; split <;> rfl

@[simp] theorem setChanges_pause_whitelist (s : State) (i : Int) (l : List Addr) :
    (setChanges s i l).pause_whitelist = s.pause_whitelist := by
  unfold setChanges; split <;> rfl

@[simp] theorem setChanges_locklist (s : State) (i : Int) (l : List Addr) :
    (setChanges s i l).locklist = s.locklist := by
  unfold setChanges; split <;> rfl

@[simp] theorem setStakeChanges_owner (s : State) (i : Int) (l : List Addr) :
    (setStakeChanges s i l).owner = s.owner := by
  unfold setStakeChanges; split <;> rfl

@[simp] theorem setStakeChanges_total_supply (s : State) (i : Int) (l : List Addr) :
    (setStakeChanges s i l).total_supply = s.total_supply := by
  unfold setStakeChanges; split <;> rfl

@[simp] theorem setStakeChanges_decimals (s : State) (i : Int) (l : List Addr) :
    (setStakeChanges s i l).decimals = s.decimals := by
  unfold setStakeChanges; split <;> rfl

@[simp] theorem setStakeChanges_addresses (s : State) (i : Int) (l : List Addr) :
    (setStakeChanges s i l).addresses = s.addresses := by
  unfold setStakeChanges; split <;> rfl

@[simp] theorem setStakeChanges_balances (s : State) (i : Int) (l : List Addr) :
    (setStakeChanges s i l).balances = s.balances := by
  unfold setStakeChanges; split <;> rfl

@[simp] theorem setStakeChanges_max_loop (s : State) (i : Int) (l : List Addr) :
    (setStakeChanges s i l).max_loop = s.max_loop := by
  unfold setStakeChanges; split <;> rfl

@[simp] theorem setStakeChanges_index_update_balance (s : State) (i : Int) (l : List Addr) :
    (setStakeChanges s i l).index_update_balance = s.index_update_balance := by
  unfold setStakeChanges; split <;> rfl

@[simp] theorem setStakeChanges_index_address_changes (s : State) (i : Int) (l : List Addr) :
    (setStakeChanges s i l).index_address_changes = s.index_address_changes := by
  unfold setStakeChanges; split <;> rfl

@[simp] theorem setStakeChanges_balance_update_db (s : State) (i : Int) (l : List Addr) :
    (setStakeChanges s i l).balance_update_db = s.balance_update_db := by
  unfold setStakeChanges; split <;> rfl

@[simp] theorem setStakeChanges_address_update_db (s : State) (i : Int) (l : List Addr) :
    (setStakeChanges s i l).address_update_db = s.address_update_db := by
  unfold setStakeChanges; split <;> rfl

@[simp] theorem setStakeChanges_dividends_score (s : State) (i : Int) (l : List Addr) :
    (setStakeChanges s i l).dividends_score = s.dividends_score := by
  unfold setStakeChanges; split <;> rfl

@[simp] theorem setStakeChanges_blacklist_address (s : State) (i : Int) (l : List Addr) :
    (setStakeChanges s i l).blacklist_address = s.blacklist_address := by
  unfold setStakeChanges; split <;> rfl

@[simp] theorem setStakeChanges_staked_balances (s : State) (i : Int) (l : List Addr) :
    (setStakeChanges s i l).staked_balances = s.staked_balances := by
  unfold setStakeChanges; split <;> rfl

@[simp] theorem setStakeChanges_minimum_stake (s : State) (i : Int) (l : List Addr) :
    (setStakeChanges s i l).minimum_stake = s.minimum_stake := by
  unfold setStakeChanges; split <;> rfl

@[simp] theorem setStakeChanges_unstaking_period (s : State) (i : Int) (l : List Addr) :
    (setStakeChanges s i l).unstaking_period = s.unstaking_period := by
  unfold setStakeChanges; split <;> rfl

@[simp] theorem setStakeChanges_total_staked_balance (s : State) (i : Int) (l : List Addr) :
    (setStakeChanges s i l).total_staked_balance = s.total_staked_balance := by
  unfold setStakeChanges; split <;> rfl

@[simp] theorem setStakeChanges_even_day_changes (s : State) (i : Int) (l : List Addr) :
    (setStakeChanges s i l).even_day_changes = s.even_day_changes := by
  unfold setStakeChanges; split <;> rfl

@[simp] theorem setStakeChanges_odd_day_changes (s : State) (i : Int) (l : List Addr) :
    (setStakeChanges s i l).odd_day_changes = s.odd_day_changes := by
  unfold setStakeChanges; split <;> rfl

@[simp] theorem setStakeChanges_stake_update_db (s : State) (i : Int) (l : List Addr) :
    (setStakeChanges s i l).stake_update_db = s.stake_update_db := by
  unfold setStakeChanges; split <;> rfl

@[simp] theorem setStakeChanges_index_stake_changes (s : State) (i : Int) (l : List Addr) :
    (setStakeChanges s i l).index_stake_changes = s.index_stake_changes := by
  unfold setStakeChanges; split <;> rfl

@[simp] theorem setStakeChanges_staking_enabled (s : State) (i : Int) (l : List Addr) :
    (setStakeChanges s i l).staking_enabled = s.staking_enabled := by
  unfold setStakeChanges; split <;> rfl

@[simp] theorem setStakeChanges_switch_divs_to_staked_tap_enabled (s : State) (i : Int) (l : List Addr) :
    (setStakeChanges s i l).switch_divs_to_staked_tap_enabled = s.switch_divs_to_staked_tap_enabled := by
  unfold setStakeChanges; split <;> rfl

@[simp] theorem setStakeChanges_paused (s : State) (i : Int) (l : List Addr) :
    (setStakeChanges s i l).paused = s.paused := by
  unfold setStakeChanges; split <;> rfl

@[simp] theorem setStakeChanges_pause_whitelist (s : State) (i : Int) (l : List Addr) :
    (setStakeChanges s i l).pause_whitelist = s.pause_whitelist := by
  unfold setStakeChanges; split <;> rfl

@[simp] theorem setStakeChanges_locklist (s : State) (i : Int) (l : List Addr) :
    (setStakeChanges s i l).locklist = s.locklist := by
  unfold setStakeChanges; split <;> rfl

/-! `putStakeChange` touches only the stake-change buffers. -/

@[simp] theorem putStakeChange_owner (s : State) (a : Addr) :
    (putStakeChange s a).owner = s.owner := by
  unfold putStakeChange; split
  · rfl
  · simp

@[simp] theorem putStakeChange_total_supply (s : State) (a : Addr) :
    (putStakeChange s a).total_supply = s.total_supply := by
  unfold putStakeChange; split
  · rfl
  · simp

@[simp] theorem putStakeChange_decimals (s : State) (a : Addr) :
    (putStakeChange s a).decimals = s.decimals := by
  unfold putStakeChange; split
  · rfl
  · simp

@[simp] theorem putStakeChange_addresses (s : State) (a : Addr) :
    (putStakeChange s a).addresses = s.addresses := by
  unfold putStakeChange; split
  · rfl
  · simp

@[simp] theorem putStakeChange_max_loop (s : State) (a : Addr) :
    (putStakeChange s a).max_loop = s.max_loop := by
  unfold putStakeChange; split
  · rfl
  · simp

@[simp] theorem putStakeChange_index_update_balance (s : State) (a : Addr) :
    (putStakeChange s a).index_update_balance = s.index_update_balance := by
  unfold putStakeChange; split
  · rfl
  · simp

@[simp] theorem putStakeChange_index_address_changes (s : State) (a : Addr) :
    (putStakeChange s a).index_address_changes = s.index_address_changes := by
  unfold putStakeChange; split
  · rfl
  · simp

@[simp] theorem putStakeChange_balance_update_db (s : State) (a : Addr) :
    (putStakeChange s a).balance_update_db = s.balance_update_db := by
  unfold putStakeChange; split
  · rfl
  · simp

@[simp] theorem putStakeChange_address_update_db (s : State) (a : Addr) :
    (putStakeChange s a).address_update_db = s.address_update_db := by
  unfold putStakeChange; split
  · rfl
  · simp

@[simp] theorem putStakeChange_dividends_score (s : State) (a : Addr) :
    (putStakeChange s a).dividends_score = s.dividends_score := by
  unfold putStakeChange; split
  · rfl
  · simp

@[simp] theorem putStakeChange_blacklist_address (s : State) (a : Addr) :
    (putStakeChange s a).blacklist_address = s.blacklist_address := by
  unfold putStakeChange; split
  · rfl
  · simp

@[simp] theorem putStakeChange_minimum_stake (s : State) (a : Addr) :
    (putStakeChange s a).minimum_stake = s.minimum_stake := by
  unfold putStakeChange; split
  · rfl
  · simp

@[simp] theorem putStakeChange_unstaking_period (s : State) (a : Addr) :
    (putStakeChange s a).unstaking_period = s.unstaking_period := by
  unfold putStakeChange; split
  · rfl
  · simp

@[simp] theorem putStakeChange_even_day_changes (s : State) (a : Addr) :
    (putStakeChange s a).even_day_changes = s.even_day_changes := by
  unfold putStakeChange; split
  · rfl
  · simp

@[simp] theorem putStakeChange_odd_day_changes (s : State) (a : Addr) :
    (putStakeChange s a).odd_day_changes = s.odd_day_changes := by
  unfold putStakeChange; split
  · rfl
  · simp

@[simp] theorem putStakeChange_stake_update_db (s : State) (a : Addr) :
    (putStakeChange s a).stake_update_db = s.stake_update_db := by
  unfold putStakeChange; split
  · rfl
  · simp

@[simp] theorem putStakeChange_index_stake_changes (s : State) (a : Addr) :
    (putStakeChange s a).index_stake_changes = s.index_stake_changes := by
  unfold putStakeChange; split
  · rfl
  · simp

@[simp] theorem putStakeChange_staking_enabled (s : State) (a : Addr) :
    (putStakeChange s a).staking_enabled = s.staking_enabled := by
  unfold putStakeChange; split
  · rfl
  · simp

@[simp] theorem putStakeChange_switch_divs_to_staked_tap_enabled (s : State) (a : Addr) :
    (putStakeChange s a).switch_divs_to_staked_tap_enabled = s.switch_divs_to_staked_tap_enabled := by
  unfold putStakeChange; split
  · rfl
  · simp

@[simp] theorem putStakeChange_paused (s : State) (a : Addr) :
    (putStakeChange s a).paused = s.paused := by
  unfold putStakeChange; split
  · rfl
  · simp

@[simp] theorem putStakeChange_pause_whitelist (s : State) (a : Addr) :
    (putStakeChange s a).pause_whitelist = s.pause_whitelist := by
  unfold putStakeChange; split
  · rfl
  · simp

@[simp] theorem putStakeChange_locklist (s : State) (a : Addr) :
    (putStakeChange s a).locklist = s.locklist := by
  unfold putStakeChange; split
  · rfl
  · simp


/-! `transferPhase2` touches only the balance-change buffers. -/

@[simp] theorem transferPhase2_owner (t : State) (sfrom sto : Addr) :
    (transferPhase2 t sfrom sto).owner = t.owner := by
  unfold transferPhase2
  split
  · dsimp only; split <;> split <;> simp
  · rfl

@[simp] theorem transferPhase2_total_supply (t : State) (sfrom sto : Addr) :
    (transferPhase2 t sfrom sto).total_supply = t.total_supply := by
  unfold transferPhase2
  split
  · dsimp only; split <;> split <;> simp
  · rfl

@[simp] theorem transferPhase2_decimals (t : State) (sfrom sto : Addr) :
    (transferPhase2 t sfrom sto).decimals = t.decimals := by
  unfold transferPhase2
  split
  · dsimp only; split <;> split <;> simp
  · rfl

@[simp] theorem transferPhase2_addresses (t : State) (sfrom sto : Addr) :
    (transferPhase2 t sfrom sto).addresses = t.addresses := by
  unfold transferPhase2
  split
  · dsimp only; split <;> split <;> simp
  · rfl

@[simp] theorem transferPhase2_balances (t : State) (sfrom sto : Addr) :
    (transferPhase2 t sfrom sto).balances = t.balances := by
  unfold transferPhase2
  split
  · dsimp only; split <;> split <;> simp
  · rfl

@[simp] theorem transferPhase2_max_loop (t : State) (sfrom sto : Addr) :
    (transferPhase2 t sfrom sto).max_loop = t.max_loop := by
  unfold transferPhase2
  split
  · dsimp only; split <;> split <;> simp
  · rfl

@[simp] theorem transferPhase2_index_update_balance (t : State) (sfrom sto : Addr) :
    (transferPhase2 t sfrom sto).index_update_balance = t.index_update_balance := by
  unfold transferPhase2
  split
  · dsimp only; split <;> split <;> simp
  · rfl

@[simp] theorem transferPhase2_index_address_changes (t : State) (sfrom sto : Addr) :
    (transferPhase2 t sfrom sto).index_address_changes = t.index_address_changes := by
  unfold transferPhase2
  split
  · dsimp only; split <;> split <;> simp
  · rfl

@[simp] theorem transferPhase2_balance_update_db (t : State) (sfrom sto : Addr) :
    (transferPhase2 t sfrom sto).balance_update_db = t.balance_update_db := by
  unfold transferPhase2
  split
  · dsimp only; split <;> split <;> simp
  · rfl

@[simp] theorem transferPhase2_address_update_db (t : State) (sfrom sto : Addr) :
    (transferPhase2 t sfrom sto).address_update_db = t.address_update_db := by
  unfold transferPhase2
  split
  · dsimp only; split <;> split <;> simp
  · rfl

@[simp] theorem transferPhase2_dividends_score (t : State) (sfrom sto : Addr) :
    (transferPhase2 t sfrom sto).dividends_score = t.dividends_score := by
  unfold transferPhase2
  split
  · dsimp only; split <;> split <;> simp
  · rfl

@[simp] theorem transferPhase2_blacklist_address (t : State) (sfrom sto : Addr) :
    (transferPhase2 t sfrom sto).blacklist_address = t.blacklist_address := by
  unfold transferPhase2
  split
  · dsimp only; split <;> split <;> simp
  · rfl

@[simp] theorem transferPhase2_staked_balances (t : State) (sfrom sto : Addr) :
    (transferPhase2 t sfrom sto).staked_balances = t.staked_balances := by
  unfold transferPhase2
  split
  · dsimp only; split <;> split <;> simp
  · rfl

@[simp] theorem transferPhase2_minimum_stake (t : State) (sfrom sto : Addr) :
    (transferPhase2 t sfrom sto).minimum_stake = t.minimum_stake := by
  unfold transferPhase2
  split
  · dsimp only; split <;> split <;> simp
  · rfl

@[simp] theorem transferPhase2_unstaking_period (t : State) (sfrom sto : Addr) :
    (transferPhase2 t sfrom sto).unstaking_period = t.unstaking_period := by
  unfold transferPhase2
  split
  · dsimp only; split <;> split <;> simp
  · rfl

@[simp] theorem transferPhase2_total_staked_balance (t : State) (sfrom sto : Addr) :
    (transferPhase2 t sfrom sto).total_staked_balance = t.total_staked_balance := by
  unfold transferPhase2
  split
  · dsimp only; split <;> split <;> simp
  · rfl

@[simp] theorem transferPhase2_even_day_stake_changes (t : State) (sfrom sto : Addr) :
    (transferPhase2 t sfrom sto).even_day_stake_changes = t.even_day_stake_changes := by
  unfold transferPhase2
  split
  · dsimp only; split <;> split <;> simp
  · rfl

@[simp] theorem transferPhase2_odd_day_stake_changes (t : State) (sfrom sto : Addr) :
    (transferPhase2 t sfrom sto).odd_day_stake_changes = t.odd_day_stake_changes := by
  unfold transferPhase2
  split
  · dsimp only; split <;> split <;> simp
  · rfl

@[simp] theorem transferPhase2_stake_update_db (t : State) (sfrom sto : Addr) :
    (transferPhase2 t sfrom sto).stake_update_db = t.stake_update_db := by
  unfold transferPhase2
  split
  · dsimp only; split <;> split <;> simp
  · rfl

@[simp] theorem transferPhase2_index_stake_changes (t : State) (sfrom sto : Addr) :
    (transferPhase2 t sfrom sto).index_stake_changes = t.index_stake_changes := by
  unfold transferPhase2
  split
  · dsimp only; split <;> split <;> simp
  · rfl

@[simp] theorem transferPhase2_staking_enabled (t : State) (sfrom sto : Addr) :
    (transferPhase2 t sfrom sto).staking_enabled = t.staking_enabled := by
  unfold transferPhase2
  split
  · dsimp only; split <;> split <;> simp
  · rfl

@[simp] theorem transferPhase2_switch_divs_to_staked_tap_enabled (t : State) (sfrom sto : Addr) :
    (transferPhase2 t sfrom sto).switch_divs_to_staked_tap_enabled = t.switch_divs_to_staked_tap_enabled := by
  unfold transferPhase2
  split
  · dsimp only; split <;> split <;> simp
  · rfl

@[simp] theorem transferPhase2_paused (t : State) (sfrom sto : Addr) :
    (transferPhase2 t sfrom sto).paused = t.paused := by
  unfold transferPhase2
  split
  · dsimp only; split <;> split <;> simp
  · rfl

@[simp] theorem transferPhase2_pause_whitelist (t : State) (sfrom sto : Addr) :
    (transferPhase2 t sfrom sto).pause_whitelist = t.pause_whitelist := by
  unfold transferPhase2
  split
  · dsimp only; split <;> split <;> simp
  · rfl

@[simp] theorem transferPhase2_locklist (t : State) (sfrom sto : Addr) :
    (transferPhase2 t sfrom sto).locklist = t.locklist := by
  unfold transferPhase2
  split
  · dsimp only; split <;> split <;> simp
  · rfl

/-- A completed `stake` ends in `putStakeChange` applied to a state whose stake
buffers and selector are unchanged from `s`. -/
theorem stake_ok_shape (s : State) (sender : Addr) (now v : Int) (s2 : State)
    (h : stake s sender now v = .ok s2) :
    ∃ t, s2 = putStakeChange t sender ∧
      t.even_day_stake_changes = s.even_day_stake_changes ∧
      t.odd_day_stake_changes = s.odd_day_stake_changes ∧
      t.stake_update_db = s.stake_update_db ∧
      t.index_update_balance = s.index_update_balance ∧
      t.index_stake_changes = s.index_stake_changes := by
  unfold stake at h
  split at h; · exact Except.noConfusion h
  split at h; · exact Except.noConfusion h
  split at h; · exact Except.noConfusion h
  split at h; · exact Except.noConfusion h
  dsimp only at h
  split at h; · exact Except.noConfusion h
  rw [Except.ok.injEq] at h
  exact ⟨_, h.symm, by simp [setRecord], by simp [setRecord], by simp [setRecord],
    by simp [setRecord], by simp [setRecord]⟩

/-- A completed `set_locklist_address` either performs the forced unstake and
ends in `putStakeChange`, or leaves the stake buffers and selector unchanged. -/
theorem set_locklist_ok_shape (s : State) (sender : Addr) (now : Int) (a : Addr) (s2 : State)
    (h : set_locklist_address s sender now a = .ok s2) :
    (∃ t, s2 = putStakeChange t a ∧
      t.even_day_stake_changes = s.even_day_stake_changes ∧
      t.odd_day_stake_changes = s.odd_day_stake_changes ∧
      t.stake_update_db = s.stake_update_db ∧
      t.index_update_balance = s.index_update_balance ∧
      t.index_stake_changes = s.index_stake_changes) ∨
    (s2.even_day_stake_changes = s.even_day_stake_changes ∧
      s2.odd_day_stake_changes = s.odd_day_stake_changes ∧
      s2.stake_update_db = s.stake_update_db ∧
      s2.index_update_balance = s.index_update_balance ∧
      s2.index_stake_changes = s.index_stake_changes) := by
  unfold set_locklist_address at h
  split at h; · exact Except.noConfusion h
  split at h; · exact Except.noConfusion h
  by_cases hmem : a ∈ s.locklist <;> simp only [hmem, if_true, if_false] at h
  · split at h
    · rw [Except.ok.injEq] at h
      exact Or.inl ⟨_, h.symm, by simp [setRecord], by simp [setRecord], by simp [setRecord],
        by simp [setRecord], by simp [setRecord]⟩
    · rw [Except.ok.injEq] at h
      subst h
      exact Or.inr ⟨rfl, rfl, rfl, rfl, rfl⟩
  · split at h
    · rw [Except.ok.injEq] at h
      exact Or.inl ⟨_, h.symm, by simp [setRecord], by simp [setRecord], by simp [setRecord],
        by simp [setRecord], by simp [setRecord]⟩
    · rw [Except.ok.injEq] at h
      subst h
      exact Or.inr ⟨by simp, by simp, by simp, by simp, by simp⟩

/-- A completed `transferPhase1` changes only balances, staking records and the
known-address list. -/
theorem transferPhase1_frame (s : State) (now : Int) (sfrom sto : Addr) (v : Int) (s8 : State)
    (h : transferPhase1 s now sfrom sto v = .ok s8) :
    s8.even_day_changes = s.even_day_changes ∧ s8.odd_day_changes = s.odd_day_changes ∧
    s8.address_update_db = s.address_update_db ∧ s8.blacklist_address = s.blacklist_address ∧
    s8.switch_divs_to_staked_tap_enabled = s.switch_divs_to_staked_tap_enabled ∧
    s8.even_day_stake_changes = s.even_day_stake_changes ∧
    s8.odd_day_stake_changes = s.odd_day_stake_changes ∧
    s8.stake_update_db = s.stake_update_db ∧
    s8.index_update_balance = s.index_update_balance ∧
    s8.index_stake_changes = s.index_stake_changes ∧
    s8.index_address_changes = s.index_address_changes ∧
    s8.balance_update_db = s.balance_update_db ∧
    s8.total_supply = s.total_supply ∧
    s8.total_staked_balance = s.total_staked_balance ∧
    s8.max_loop = s.max_loop ∧
    s8.dividends_score = s.dividends_score ∧
    s8.staking_enabled = s.staking_enabled ∧
    s8.paused = s.paused ∧ s8.pause_whitelist = s.pause_whitelist ∧ s8.locklist = s.locklist := by
  unfold transferPhase1 at h
  split at h; · exact Except.noConfusion h
  split at h; · exact Except.noConfusion h
  dsimp only at h
  split at h; · exact Except.noConfusion h
  rw [Except.ok.injEq] at h
  subst h
  split <;> simp [setRecord]

/-! Result-shape lemmas: the exact successful result of each operation. -/

theorem untether_ok (s : State) (sender : Addr) (s2 : State)
    (h : untether s sender = .ok s2) : s2 = s := by
  unfold untether at h
  split at h
  · exact Except.noConfusion h
  · rw [Except.ok.injEq] at h; exact h.symm

theorem toggle_staking_enabled_ok (s : State) (sender : Addr) (s2 : State)
    (h : toggle_staking_enabled s sender = .ok s2) :
    s2 = { s with staking_enabled := !s.staking_enabled } := by
  unfold toggle_staking_enabled at h
  split at h
  · exact Except.noConfusion h
  · rw [Except.ok.injEq] at h; exact h.symm

theorem toggle_switch_divs_ok (s : State) (sender : Addr) (s2 : State)
    (h : toggle_switch_divs_to_staked_tap_enabled s sender = .ok s2) :
    s2 = { s with switch_divs_to_staked_tap_enabled := !s.switch_divs_to_staked_tap_enabled } := by
  unfold toggle_switch_divs_to_staked_tap_enabled at h
  split at h
  · exact Except.noConfusion h
  · rw [Except.ok.injEq] at h; exact h.symm

theorem togglePaused_ok (s : State) (sender : Addr) (s2 : State)
    (h : togglePaused s sender = .ok s2) : s2 = { s with paused := !s.paused } := by
  unfold togglePaused at h
  split at h
  · exact Except.noConfusion h
  · rw [Except.ok.injEq] at h; exact h.symm

theorem set_minimum_stake_ok (s : State) (sender : Addr) (amount : Int) (s2 : State)
    (h : set_minimum_stake s sender amount = .ok s2) :
    s2 = { s with minimum_stake := amount * 10 ^ s.decimals.toNat } := by
  unfold set_minimum_stake at h
  split at h
  · exact Except.noConfusion h
  split at h
  · exact Except.noConfusion h
  · rw [Except.ok.injEq] at h; exact h.symm

theorem set_unstaking_period_ok (s : State) (sender : Addr) (t : Int) (s2 : State)
    (h : set_unstaking_period s sender t = .ok s2) :
    s2 = { s with unstaking_period := t * DAY_TO_MICROSECOND } := by
  unfold set_unstaking_period at h
  split at h
  · exact Except.noConfusion h
  split at h
  · exact Except.noConfusion h
  · rw [Except.ok.injEq] at h; exact h.symm

theorem set_max_loop_ok (s : State) (sender : Addr) (loops : Int) (s2 : State)
    (h : set_max_loop s sender loops = .ok s2) : s2 = { s with max_loop := loops } := by
  unfold set_max_loop at h
  split at h
  · exact Except.noConfusion h
  · rw [Except.ok.injEq] at h; exact h.symm

theorem set_dividends_score_ok (s : State) (sender score : Addr) (s2 : State)
    (h : set_dividends_score s sender score = .ok s2) :
    s2 = { s with dividends_score := some score } := by
  unfold set_dividends_score at h
  split at h
  · exact Except.noConfusion h
  · rw [Except.ok.injEq] at h; exact h.symm

theorem remove_from_blacklist_ok (s : State) (sender a : Addr) (s2 : State)
    (h : remove_from_blacklist s sender a = .ok s2) :
    s2 = s ∨ s2 = { s with blacklist_address := swapRemove s.blacklist_address a } := by
  unfold remove_from_blacklist at h
  split at h
  · split at h
    · exact Except.noConfusion h
    · rw [Except.ok.injEq] at h; exact Or.inr h.symm
  · rw [Except.ok.injEq] at h; exact Or.inl h.symm

theorem set_blacklist_address_ok (s : State) (sender a : Addr) (s2 : State)
    (h : set_blacklist_address s sender a = .ok s2) :
    s2 = s ∨ s2 = { s with blacklist_address := s.blacklist_address ++ [a] } := by
  unfold set_blacklist_address at h
  split at h
  · split at h
    · rw [Except.ok.injEq] at h; exact Or.inr h.symm
    · rw [Except.ok.injEq] at h; exact Or.inl h.symm
  · rw [Except.ok.injEq] at h; exact Or.inl h.symm

theorem switch_address_update_db_ok (s : State) (sender : Addr) (s2 : State)
    (h : switch_address_update_db s sender = .ok s2) :
    s2 = { s with
           address_update_db := (s.address_update_db + 1) % 2,
           index_address_changes := (getChanges s ((s.address_update_db + 1) % 2)).length } := by
  unfold switch_address_update_db at h
  split at h
  · exact Except.noConfusion h
  · rw [Except.ok.injEq] at h; exact h.symm

theorem clear_yesterdays_changes_ok (s : State) (sender : Addr) (s2 : State) (b : Bool)
    (h : clear_yesterdays_changes s sender = .ok (s2, b)) :
    s2 = s ∨ s2 = setChanges s ((s.address_update_db + 1) % 2)
      ((getChanges s ((s.address_update_db + 1) % 2)).take
        (((getChanges s ((s.address_update_db + 1) % 2)).length : Int) -
          min ((getChanges s ((s.address_update_db + 1) % 2)).length : Int) s.max_loop).toNat) := by
  unfold clear_yesterdays_changes at h
  split at h
  · exact Except.noConfusion h
  · dsimp only at h
    split at h
    · rw [Except.ok.injEq, Prod.mk.injEq] at h
      exact Or.inl h.1.symm
    · rw [Except.ok.injEq, Prod.mk.injEq] at h
      exact Or.inr h.1.symm

theorem get_balance_updates_ok (s : State) (sender : Addr) (s2 : State)
    (page : List (Addr × Int)) (h : get_balance_updates s sender = .ok (s2, page)) :
    s.dividends_score = some sender ∧
    (s2 = s ∨
    (s.index_update_balance = ((getChanges s s.balance_update_db).length : Int) ∧
      s.balance_update_db ≠ s.address_update_db ∧
      s2 = { s with
             balance_update_db := s.address_update_db,
             index_update_balance := s.index_address_changes }) ∨
    (s.index_update_balance ≠ ((getChanges s s.balance_update_db).length : Int) ∧
      s2 = { s with
             index_update_balance := min (s.index_update_balance + s.max_loop) ((getChanges s s.balance_update_db).length : Int) })) := by
  unfold get_balance_updates at h
  split at h
  · exact Except.noConfusion h
  · rename_i hdv
    rw [not_not] at hdv
    refine ⟨hdv, ?_⟩
    dsimp only at h
    split at h
    · rename_i heq
      split at h
      · rename_i hne
        rw [Except.ok.injEq, Prod.mk.injEq] at h
        exact Or.inr (Or.inl ⟨heq, hne, h.1.symm⟩)
      · rw [Except.ok.injEq, Prod.mk.injEq] at h
        exact Or.inl h.1.symm
    · rename_i hne
      rw [Except.ok.injEq, Prod.mk.injEq] at h
      exact Or.inr (Or.inr ⟨hne, h.1.symm⟩)

theorem get_stake_updates_ok (s : State) (sender : Addr) (s2 : State)
    (page : List (Addr × Int)) (h : get_stake_updates s sender = .ok (s2, page)) :
    s2 = s ∨
    (s.index_stake_changes ≠ ((getStakeChanges s s.stake_update_db).length : Int) ∧
      s2 = { s with
             index_stake_changes := min (s.index_stake_changes + s.max_loop) ((getStakeChanges s s.stake_update_db).length : Int) }) := by
  unfold get_stake_updates at h
  split at h
  · exact Except.noConfusion h
  split at h
  · exact Except.noConfusion h
  split at h
  · exact Except.noConfusion h
  · dsimp only at h
    split at h
    · rw [Except.ok.injEq, Prod.mk.injEq] at h
      exact Or.inl h.1.symm
    · rename_i hne
      rw [Except.ok.injEq, Prod.mk.injEq] at h
      exact Or.inr ⟨hne, h.1.symm⟩

theorem switch_stake_update_db_ok (s : State) (sender : Addr) (s2 : State)
    (h : switch_stake_update_db s sender = .ok s2) :
    s2 = { s with
           stake_update_db := (s.stake_update_db + 1) % 2,
           index_stake_changes := (getStakeChanges s ((s.stake_update_db + 1) % 2)).length } := by
  unfold switch_stake_update_db at h
  split at h
  · exact Except.noConfusion h
  split at h
  · exact Except.noConfusion h
  split at h
  · exact Except.noConfusion h
  · rw [Except.ok.injEq] at h; exact h.symm

theorem clear_yesterdays_stake_changes_ok (s : State) (sender : Addr) (s2 : State) (b : Bool)
    (h : clear_yesterdays_stake_changes s sender = .ok (s2, b)) :
    s2 = s ∨ s2 = setStakeChanges s ((s.stake_update_db + 1) % 2)
      ((getStakeChanges s ((s.stake_update_db + 1) % 2)).take
        (((getStakeChanges s ((s.stake_update_db + 1) % 2)).length : Int) -
          min ((getStakeChanges s ((s.stake_update_db + 1) % 2)).length : Int) s.max_loop).toNat) := by
  unfold clear_yesterdays_stake_changes at h
  split at h
  · exact Except.noConfusion h
  split at h
  · exact Except.noConfusion h
  split at h
  · exact Except.noConfusion h
  · dsimp only at h
    split at h
    · rw [Except.ok.injEq, Prod.mk.injEq] at h
      exact Or.inl h.1.symm
    · rw [Except.ok.injEq, Prod.mk.injEq] at h
      exact Or.inr h.1.symm

theorem remove_from_locklist_ok (s : State) (sender a : Addr) (s2 : State)
    (h : remove_from_locklist s sender a = .ok s2) :
    s2 = { s with locklist := swapRemove s.locklist a } := by
  unfold remove_from_locklist at h
  split at h
  · exact Except.noConfusion h
  split at h
  · exact Except.noConfusion h
  · rw [Except.ok.injEq] at h; exact h.symm

theorem remove_from_whitelist_ok (s : State) (sender a : Addr) (s2 : State)
    (h : remove_from_whitelist s sender a = .ok s2) :
    s2 = { s with pause_whitelist := swapRemove s.pause_whitelist a } := by
  unfold remove_from_whitelist at h
  split at h
  · exact Except.noConfusion h
  split at h
  · exact Except.noConfusion h
  · rw [Except.ok.injEq] at h; exact h.symm

theorem set_whitelist_address_ok (s : State) (sender a : Addr) (s2 : State)
    (h : set_whitelist_address s sender a = .ok s2) :
    s2 = s ∨ s2 = { s with pause_whitelist := s.pause_whitelist ++ [a] } := by
  unfold set_whitelist_address at h
  split at h
  · exact Except.noConfusion h
  split at h
  · rw [Except.ok.injEq] at h; exact Or.inr h.symm
  · rw [Except.ok.injEq] at h; exact Or.inl h.symm

theorem transfer_ok_shape (s : State) (sender : Addr) (now : Int) (sto : Addr) (v : Int)
    (s2 : State) (h : transfer s sender now sto v = .ok s2) :
    ∃ s8, transferPhase1 s now sender sto v = .ok s8 ∧ s2 = transferPhase2 s8 sender sto := by
  unfold transfer at h
  split at h
  · exact Except.noConfusion h
  split at h
  · exact Except.noConfusion h
  · unfold transferInternal at h
    split at h
    · exact Except.noConfusion h
    · rename_i s8 hp
      rw [Except.ok.injEq] at h
      exact ⟨s8, hp, h.symm⟩

theorem setStakeChanges_take_nodup (s : State) (i : Int) (n : Nat)
    (he : s.even_day_stake_changes.Nodup) (ho : s.odd_day_stake_changes.Nodup) :
    (setStakeChanges s i ((getStakeChanges s i).take n)).even_day_stake_changes.Nodup ∧
    (setStakeChanges s i ((getStakeChanges s i).take n)).odd_day_stake_changes.Nodup := by
  unfold setStakeChanges getStakeChanges
  split
  · exact ⟨he, List.Nodup.sublist (List.take_sublist _ _) ho⟩
  · exact ⟨List.Nodup.sublist (List.take_sublist _ _) he, ho⟩

/-- No operation ever introduces a duplicate into a stake-change buffer. -/
theorem apply_stake_buffers_nodup (s : State) (op : Op) (s2 : State)
    (h : apply op s = .ok s2)
    (he : s.even_day_stake_changes.Nodup) (ho : s.odd_day_stake_changes.Nodup) :
    s2.even_day_stake_changes.Nodup ∧ s2.odd_day_stake_changes.Nodup := by
  cases op with
  | untetherOp sender => rw [untether_ok s sender s2 h]; exact ⟨he, ho⟩
  | toggleStakingOp sender => rw [toggle_staking_enabled_ok s sender s2 h]; exact ⟨he, ho⟩
  | toggleSwitchDivsOp sender => rw [toggle_switch_divs_ok s sender s2 h]; exact ⟨he, ho⟩
  | togglePausedOp sender => rw [togglePaused_ok s sender s2 h]; exact ⟨he, ho⟩
  | stakeOp sender now v =>
      obtain ⟨t, rfl, hte, hto, -, -, -⟩ := stake_ok_shape s sender now v s2 h
      exact putStakeChange_nodup t sender (hte ▸ he) (hto ▸ ho)
  | transferOp sender now sto v =>
      obtain ⟨s8, hp, rfl⟩ := transfer_ok_shape s sender now sto v s2 h
      obtain ⟨-, -, -, -, -, h6, h7, -⟩ := transferPhase1_frame s now sender sto v s8 hp
      constructor
      · simpa [h6] using he
      · simpa [h7] using ho
  | setMinimumStakeOp sender amount =>
      rw [set_minimum_stake_ok s sender amount s2 h]; exact ⟨he, ho⟩
  | setUnstakingPeriodOp sender t =>
      rw [set_unstaking_period_ok s sender t s2 h]; exact ⟨he, ho⟩
  | setMaxLoopOp sender loops =>
      rw [set_max_loop_ok s sender loops s2 h]; exact ⟨he, ho⟩
  | setDividendsScoreOp sender score =>
      rw [set_dividends_score_ok s sender score s2 h]; exact ⟨he, ho⟩
  | getBalanceUpdatesOp sender =>
      simp only [apply] at h
      cases hg : get_balance_updates s sender with
      | error e => rw [hg] at h; exact Except.noConfusion h
      | ok p =>
          rw [hg] at h
          simp only [Except.map] at h
          rw [Except.ok.injEq] at h
          subst h
          rcases get_balance_updates_ok s sender p.1 p.2 (by rw [hg]) with
            ⟨-, h2 | ⟨-, -, h2⟩ | ⟨-, h2⟩⟩ <;> rw [h2] <;> exact ⟨he, ho⟩
  | clearYesterdaysChangesOp sender =>
      simp only [apply] at h
      cases hg : clear_yesterdays_changes s sender with
      | error e => rw [hg] at h; exact Except.noConfusion h
      | ok p =>
          rw [hg] at h
          simp only [Except.map] at h
          rw [Except.ok.injEq] at h
          subst h
          rcases clear_yesterdays_changes_ok s sender p.1 p.2 (by rw [hg]) with h2 | h2 <;> rw [h2]
          · exact ⟨he, ho⟩
          · exact ⟨by simpa using he, by simpa using ho⟩
  | removeFromBlacklistOp sender a =>
      rcases remove_from_blacklist_ok s sender a s2 h with h2 | h2 <;> rw [h2] <;> exact ⟨he, ho⟩
  | setBlacklistAddressOp sender a =>
      rcases set_blacklist_address_ok s sender a s2 h with h2 | h2 <;> rw [h2] <;> exact ⟨he, ho⟩
  | switchAddressUpdateDbOp sender =>
      rw [switch_address_update_db_ok s sender s2 h]; exact ⟨he, ho⟩
  | getStakeUpdatesOp sender =>
      simp only [apply] at h
      cases hg : get_stake_updates s sender with
      | error e => rw [hg] at h; exact Except.noConfusion h
      | ok p =>
          rw [hg] at h
          simp only [Except.map] at h
          rw [Except.ok.injEq] at h
          subst h
          rcases get_stake_updates_ok s sender p.1 p.2 (by rw [hg]) with h2 | ⟨-, h2⟩ <;>
            rw [h2] <;> exact ⟨he, ho⟩
  | switchStakeUpdateDbOp sender =>
      rw [switch_stake_update_db_ok s sender s2 h]; exact ⟨he, ho⟩
  | clearYesterdaysStakeChangesOp sender =>
      simp only [apply] at h
      cases hg : clear_yesterdays_stake_changes s sender with
      | error e => rw [hg] at h; exact Except.noConfusion h
      | ok p =>
          rw [hg] at h
          simp only [Except.map] at h
          rw [Except.ok.injEq] at h
          subst h
          rcases clear_yesterdays_stake_changes_ok s sender p.1 p.2 (by rw [hg]) with h2 | h2 <;>
            rw [h2]
          · exact ⟨he, ho⟩
          · exact setStakeChanges_take_nodup s _ _ he ho
  | removeFromLocklistOp sender a =>
      rw [remove_from_locklist_ok s sender a s2 h]; exact ⟨he, ho⟩
  | setLocklistAddressOp sender now a =>
      rcases set_locklist_ok_shape s sender now a s2 h with ⟨t, rfl, hte, hto, -, -, -⟩ | ⟨h1, h2, -⟩
      · exact putStakeChange_nodup t a (hte ▸ he) (hto ▸ ho)
      · exact ⟨h1 ▸ he, h2 ▸ ho⟩
  | removeFromWhitelistOp sender a =>
      rw [remove_from_whitelist_ok s sender a s2 h]; exact ⟨he, ho⟩
  | setWhitelistAddressOp sender a =>
      rcases set_whitelist_address_ok s sender a s2 h with h2 | h2 <;> rw [h2] <;> exact ⟨he, ho⟩

/-- C6 counterexample: in `SC6` the active balance-change buffer already
contains the sender `A2`.  A successful transfer from `A2` to `A3` appends both
again without any membership test, leaving the buffer `[A2, A2, A3]` — the
same address twice — contradicting the claimed duplicate suppression for the
balance dimension. -/
theorem tap_dup_append_cex :
    (apply (Op.transferOp A2 0 A3 1) SC6).toOption.isSome = true ∧
    SC6.even_day_changes = [A2] ∧
    (post (Op.transferOp A2 0 A3 1) SC6).even_day_changes = [A2, A2, A3] ∧
    ¬(post (Op.transferOp A2 0 A3 1) SC6).even_day_changes.Nodup := by
  refine ⟨?_, ?_, ?_, ?_⟩ <;> decide

/-- C6 amended: only the stake dimension suppresses duplicates — `stake` and
the forced unstake of `set_locklist_address` append to the active stake-change
buffer iff the address is absent, and no operation ever introduces a duplicate
into a stake-change buffer; a successful transfer, however, appends the
non-blacklisted sender and recipient to the active balance-change buffer
unconditionally (when the staked-dividends mode is off), so balance-change
buffers can contain the same address twice. -/
theorem tap_dup_suppression_amended (s : State) :
    (∀ sender now v s2, stake s sender now v = .ok s2 →
      getStakeChanges s2 s.stake_update_db =
        getStakeChanges s s.stake_update_db ++
          (if sender ∈ getStakeChanges s s.stake_update_db then [] else [sender])) ∧
    (∀ sender now a s2, set_locklist_address s sender now a = .ok s2 →
      getStakeChanges s2 s.stake_update_db =
        getStakeChanges s s.stake_update_db ++
          (if a ∈ getStakeChanges s s.stake_update_db then [] else [a]) ∨
      getStakeChanges s2 s.stake_update_db = getStakeChanges s s.stake_update_db) ∧
    (∀ op s2, apply op s = .ok s2 → s.even_day_stake_changes.Nodup →
      s.odd_day_stake_changes.Nodup →
      s2.even_day_stake_changes.Nodup ∧ s2.odd_day_stake_changes.Nodup) ∧
    (∀ sender now sto v s2, transfer s sender now sto v = .ok s2 →
      s.switch_divs_to_staked_tap_enabled = false →
      getChanges s2 s.address_update_db =
        (getChanges s s.address_update_db ++
          (if sender ∈ s.blacklist_address then [] else [sender]))
          ++ (if sto ∈ s.blacklist_address then [] else [sto])) := by
  refine ⟨?_, ?_, ?_, ?_⟩
  · intro sender now v s2 h
    obtain ⟨t, rfl, hte, hto, htd, -, -⟩ := stake_ok_shape s sender now v s2 h
    exact putStakeChange_full s sender t hte hto htd
  · intro sender now a s2 h
    rcases set_locklist_ok_shape s sender now a s2 h with ⟨t, rfl, hte, hto, htd, -, -⟩ | ⟨h1, h2, -, -, -⟩
    · exact Or.inl (putStakeChange_full s a t hte hto htd)
    · right
      unfold getStakeChanges
      rw [h1, h2]
  · intro op s2 h he ho
    exact apply_stake_buffers_nodup s op s2 h he ho
  · intro sender now sto v s2 h hsw
    obtain ⟨s8, hp, rfl⟩ := transfer_ok_shape s sender now sto v s2 h
    obtain ⟨h1, h2, h3, h4, h5, -⟩ := transferPhase1_frame s now sender sto v s8 hp
    have hg : ∀ i, getChanges s8 i = getChanges s i := by
      intro i; unfold getChanges; rw [h1, h2]
    have hx := transferPhase2_changes s8 sender sto (by rw [h5, hsw])
    rw [h3, hg, h4] at hx
    exact hx

theorem tap_dup_suppression_amended_witness :
    getChanges (post (Op.transferOp A2 0 A3 1) SC6) SC6.address_update_db =
      (getChanges SC6 SC6.address_update_db ++
        (if A2 ∈ SC6.blacklist_address then [] else [A2]))
        ++ (if A3 ∈ SC6.blacklist_address then [] else [A3]) :=
  (tap_dup_suppression_amended SC6).2.2.2 A2 0 A3 1 (post (Op.transferOp A2 0 A3 1) SC6) rfl rfl

/-- C7 counterexample: in `SC7` the balance drain buffer is fully consumed
(cursor 1 = its length) and the write selector has already flipped to buffer 1
whose saved offset is 0.  A `get_balance_updates` call — which is not
`switch_address_update_db` — completes and moves the cursor from 1 down to 0,
contradicting the claim that only the explicit flip can decrease it. -/
theorem tap_cursor_decrease_cex :
    (apply (Op.getBalanceUpdatesOp A1) SC7).toOption.isSome = true ∧
    SC7.index_update_balance = 1 ∧
    (post (Op.getBalanceUpdatesOp A1) SC7).index_update_balance = 0 ∧
    Op.getBalanceUpdatesOp A1 ≠ Op.switchAddressUpdateDbOp A1 := by
  refine ⟨?_, ?_, ?_, ?_⟩ <;> decide

/-- C7 amended: in any state where each drain cursor is within its buffer and
`max_loop` is non-negative, no operation decreases the stake-dimension cursor
except the stake-dimension flip `switch_stake_update_db`, and no operation —
not even the balance-dimension flip — decreases the balance-dimension cursor
except the auto-advance branch of `get_balance_updates`, which re-points the
cursor at the flipped buffer using the offset saved at flip time. -/
theorem tap_cursor_monotone_amended (s : State) (op : Op)
    (hml : 0 ≤ s.max_loop)
    (hb : s.index_update_balance ≤ ((getChanges s s.balance_update_db).length : Int))
    (hs : s.index_stake_changes ≤ ((getStakeChanges s s.stake_update_db).length : Int)) :
    (¬isBalanceAutoAdvance op s → s.index_update_balance ≤ (post op s).index_update_balance) ∧
    (¬isStakeFlip op → s.index_stake_changes ≤ (post op s).index_stake_changes) := by
  cases hap : apply op s with
  | error e =>
      unfold post
      rw [hap]
      exact ⟨fun _ => le_refl _, fun _ => le_refl _⟩
  | ok s2 =>
      unfold post
      rw [hap]
      cases op with
      | untetherOp sender =>
          rw [untether_ok s sender s2 hap]
          exact ⟨fun _ => le_refl _, fun _ => le_refl _⟩
      | toggleStakingOp sender =>
          rw [toggle_staking_enabled_ok s sender s2 hap]
          exact ⟨fun _ => le_refl _, fun _ => le_refl _⟩
      | toggleSwitchDivsOp sender =>
          rw [toggle_switch_divs_ok s sender s2 hap]
          exact ⟨fun _ => le_refl _, fun _ => le_refl _⟩
      | togglePausedOp sender =>
          rw [togglePaused_ok s sender s2 hap]
          exact ⟨fun _ => le_refl _, fun _ => le_refl _⟩
      | stakeOp sender now v =>
          obtain ⟨t, rfl, -, -, -, h5, h6⟩ := stake_ok_shape s sender now v s2 hap
          constructor
          · intro
            rw [putStakeChange_index_update_balance, h5]
          · intro
            rw [putStakeChange_index_stake_changes, h6]
      | transferOp sender now sto v =>
          obtain ⟨s8, hp, rfl⟩ := transfer_ok_shape s sender now sto v s2 hap
          obtain ⟨-, -, -, -, -, -, -, -, h9, h10, -⟩ := transferPhase1_frame s now sender sto v s8 hp
          constructor
          · intro
            rw [transferPhase2_index_update_balance, h9]
          · intro
            rw [transferPhase2_index_stake_changes, h10]
      | setMinimumStakeOp sender amount =>
          rw [set_minimum_stake_ok s sender amount s2 hap]
          exact ⟨fun _ => le_refl _, fun _ => le_refl _⟩
      | setUnstakingPeriodOp sender t =>
          rw [set_unstaking_period_ok s sender t s2 hap]
          exact ⟨fun _ => le_refl _, fun _ => le_refl _⟩
      | setMaxLoopOp sender loops =>
          rw [set_max_loop_ok s sender loops s2 hap]
          exact ⟨fun _ => le_refl _, fun _ => le_refl _⟩
      | setDividendsScoreOp sender score =>
          rw [set_dividends_score_ok s sender score s2 hap]
          exact ⟨fun _ => le_refl _, fun _ => le_refl _⟩
      | getBalanceUpdatesOp sender =>
          simp only [apply] at hap
          cases hg : get_balance_updates s sender with
          | error e => rw [hg] at hap; exact Except.noConfusion hap
          | ok p =>
              rw [hg] at hap
              simp only [Except.map] at hap
              rw [Except.ok.injEq] at hap
              subst hap
              obtain ⟨hdv, hd⟩ := get_balance_updates_ok s sender p.1 p.2 (by rw [hg])
              constructor
              · intro hnot
                rcases hd with h2 | ⟨heq, hne, h2⟩ | ⟨-, h2⟩
                · rw [h2]
                · exact absurd ⟨hdv, heq, hne⟩ hnot
                · rw [h2]
                  exact le_min (le_add_of_nonneg_right hml) hb
              · intro
                rcases hd with h2 | ⟨-, -, h2⟩ | ⟨-, h2⟩ <;> rw [h2]
      | clearYesterdaysChangesOp sender =>
          simp only [apply] at hap
          cases hg : clear_yesterdays_changes s sender with
          | error e => rw [hg] at hap; exact Except.noConfusion hap
          | ok p =>
              rw [hg] at hap
              simp only [Except.map] at hap
              rw [Except.ok.injEq] at hap
              subst hap
              rcases clear_yesterdays_changes_ok s sender p.1 p.2 (by rw [hg]) with h2 | h2 <;>
                rw [h2] <;> exact ⟨fun _ => by simp, fun _ => by simp⟩
      | removeFromBlacklistOp sender a =>
          rcases remove_from_blacklist_ok s sender a s2 hap with h2 | h2 <;> rw [h2] <;>
            exact ⟨fun _ => le_refl _, fun _ => le_refl _⟩
      | setBlacklistAddressOp sender a =>
          rcases set_blacklist_address_ok s sender a s2 hap with h2 | h2 <;> rw [h2] <;>
            exact ⟨fun _ => le_refl _, fun _ => le_refl _⟩
      | switchAddressUpdateDbOp sender =>
          rw [switch_address_update_db_ok s sender s2 hap]
          exact ⟨fun _ => le_refl _, fun _ => le_refl _⟩
      | getStakeUpdatesOp sender =>
          simp only [apply] at hap
          cases hg : get_stake_updates s sender with
          | error e => rw [hg] at hap; exact Except.noConfusion hap
          | ok p =>
              rw [hg] at hap
              simp only [Except.map] at hap
              rw [Except.ok.injEq] at hap
              subst hap
              rcases get_stake_updates_ok s sender p.1 p.2 (by rw [hg]) with h2 | ⟨-, h2⟩ <;>
                rw [h2]
              · exact ⟨fun _ => le_refl _, fun _ => le_refl _⟩
              · exact ⟨fun _ => le_refl _,
                  fun _ => le_min (le_add_of_nonneg_right hml) hs⟩
      | switchStakeUpdateDbOp sender =>
          rw [switch_stake_update_db_ok s sender s2 hap]
          refine ⟨fun _ => le_refl _, fun hnot => ?_⟩
          exact absurd trivial hnot
      | clearYesterdaysStakeChangesOp sender =>
          simp only [apply] at hap
          cases hg : clear_yesterdays_stake_changes s sender with
          | error e => rw [hg] at hap; exact Except.noConfusion hap
          | ok p =>
              rw [hg] at hap
              simp only [Except.map] at hap
              rw [Except.ok.injEq] at hap
              subst hap
              rcases clear_yesterdays_stake_changes_ok s sender p.1 p.2 (by rw [hg]) with h2 | h2 <;>
                rw [h2] <;> exact ⟨fun _ => by simp, fun _ => by simp⟩
      | removeFromLocklistOp sender a =>
          rw [remove_from_locklist_ok s sender a s2 hap]
          exact ⟨fun _ => le_refl _, fun _ => le_refl _⟩
      | setLocklistAddressOp sender now a =>
          rcases set_locklist_ok_shape s sender now a s2 hap with
            ⟨t, rfl, -, -, -, h5, h6⟩ | ⟨-, -, -, h4, h5⟩
          · constructor
            · intro
              rw [putStakeChange_index_update_balance, h5]
            · intro
              rw [putStakeChange_index_stake_changes, h6]
          · exact ⟨fun _ => le_of_eq h4.symm, fun _ => le_of_eq h5.symm⟩
      | removeFromWhitelistOp sender a =>
          rw [remove_from_whitelist_ok s sender a s2 hap]
          exact ⟨fun _ => le_refl _, fun _ => le_refl _⟩
      | setWhitelistAddressOp sender a =>
          rcases set_whitelist_address_ok s sender a s2 hap with h2 | h2 <;> rw [h2] <;>
            exact ⟨fun _ => le_refl _, fun _ => le_refl _⟩

theorem tap_cursor_monotone_amended_witness :
    (¬isBalanceAutoAdvance (Op.untetherOp A0) S0 →
      S0.index_update_balance ≤ (post (Op.untetherOp A0) S0).index_update_balance) ∧
    (¬isStakeFlip (Op.untetherOp A0) →
      S0.index_stake_changes ≤ (post (Op.untetherOp A0) S0).index_stake_changes) :=
  tap_cursor_monotone_amended S0 (Op.untetherOp A0) (by decide) (by decide) (by decide)

/-- C8 counterexample: in a successful transfer from `A2` to the contract
`A4`, the state at the moment `tokenFallback` is invoked (the result of
`transferPhase1`, source lines 342-365) has an empty balance-change buffer,
while the final state of `_transfer` has `[A2, A4]` in it: the appends of
sender and recipient to the active balance-change buffer (source lines
375-380) happen only after the hook returns, so a reentrant call from inside
the hook does not observe them, contradicting the claim that all of the
transfer's own state mutations are committed before the hook. -/
theorem tap_hook_order_cex :
    A4.is_contract = true ∧
    (∃ s1, transferPhase1 SC8 0 A2 A4 3 = .ok s1 ∧ s1.even_day_changes = []) ∧
    (∃ s2, transferInternal SC8 0 A2 A4 3 = .ok s2 ∧ s2.even_day_changes = [A2, A4]) := by
  refine ⟨rfl, ⟨_, rfl, by decide⟩, ⟨_, rfl, by decide⟩⟩

/-- C8 amended: in every successful transfer the balance updates, the
staking-record updates and the known-address registration are committed before
the `tokenFallback` hook point — the post-hook phase changes none of them (it
only appends to the balance-change buffers), so a reentrant call sees the
final balances; the change-buffer appends, however, happen after the hook. -/
theorem tap_hook_order_amended (s : State) (now : Int) (sfrom sto : Addr) (v : Int)
    (s1 : State) (h : transferPhase1 s now sfrom sto v = .ok s1) :
    transferInternal s now sfrom sto v = .ok (transferPhase2 s1 sfrom sto) ∧
    (transferPhase2 s1 sfrom sto).balances = s1.balances ∧
    (transferPhase2 s1 sfrom sto).staked_balances = s1.staked_balances ∧
    (transferPhase2 s1 sfrom sto).addresses = s1.addresses ∧
    (transferPhase2 s1 sfrom sto).total_supply = s1.total_supply ∧
    (transferPhase2 s1 sfrom sto).total_staked_balance = s1.total_staked_balance := by
  refine ⟨?_, by simp, by simp, by simp, by simp, by simp⟩
  unfold transferInternal
  rw [h]

theorem tap_hook_order_amended_witness :
    ∃ s1, transferPhase1 SC8 0 A2 A4 3 = .ok s1 ∧
      transferInternal SC8 0 A2 A4 3 = .ok (transferPhase2 s1 A2 A4) ∧
      (transferPhase2 s1 A2 A4).balances = s1.balances := by
  refine ⟨_, rfl, ?_, ?_⟩
  · exact (tap_hook_order_amended SC8 0 A2 A4 3 _ rfl).1
  · exact (tap_hook_order_amended SC8 0 A2 A4 3 _ rfl).2.1

/-! Summation lemmas for balance conservation. -/

theorem map_updFn_not_mem (f : Addr → Int) (a : Addr) (v : Int) (l : List Addr) (ha : a ∉ l) :
    l.map (updFn f a v) = l.map f := by
  induction l with
  | nil => rfl
  | cons b t ih =>
    simp only [List.mem_cons, not_or] at ha
    simp only [List.map_cons]
    rw [ih ha.2]
    have hba : ¬(b = a) := fun hb => ha.1 hb.symm
    simp [updFn, hba]

theorem sum_map_updFn_mem (f : Addr → Int) (a : Addr) (v : Int) (l : List Addr)
    (hl : l.Nodup) (ha : a ∈ l) :
    (l.map (updFn f a v)).sum = (l.map f).sum + (v - f a) := by
  induction l with
  | nil => cases ha
  | cons b t ih =>
    rw [List.nodup_cons] at hl
    rcases List.mem_cons.mp ha with rfl | hat
    · simp only [List.map_cons, List.sum_cons]
      rw [map_updFn_not_mem f _ v t hl.1]
      have hv : updFn f a v a = v := by simp [updFn]
      rw [hv]
      ring
    · simp only [List.map_cons, List.sum_cons]
      rw [ih hl.2 hat]
      have hba : ¬(b = a) := fun h => hl.1 (h ▸ hat)
      simp only [updFn, if_neg hba]
      ring

theorem sum_map_filter_ne_zero (f : Addr → Int) (l : List Addr) :
    ((l.filter fun a => decide (f a ≠ 0)).map f).sum = (l.map f).sum := by
  induction l with
  | nil => rfl
  | cons b t ih =>
    rw [List.filter_cons]
    by_cases hb : f b = 0 <;> simp [hb] <;> simpa using ih

/-- Two duplicate-free lists that both contain the support of `f` have the same
`f`-sum: this is "the sum over all accounts". -/
theorem sum_eq_of_support (f : Addr → Int) (l1 l2 : List Addr)
    (h1 : l1.Nodup) (h2 : l2.Nodup)
    (hs1 : ∀ a, f a ≠ 0 → a ∈ l1) (hs2 : ∀ a, f a ≠ 0 → a ∈ l2) :
    (l1.map f).sum = (l2.map f).sum := by
  rw [← sum_map_filter_ne_zero f l1, ← sum_map_filter_ne_zero f l2]
  have hperm : List.Perm (l1.filter fun a => decide (f a ≠ 0)) (l2.filter fun a => decide (f a ≠ 0)) := by
    rw [List.perm_ext_iff_of_nodup (h1.filter _) (h2.filter _)]
    intro a
    simp only [List.mem_filter, decide_eq_true_eq]
    constructor
    · rintro ⟨-, hf⟩; exact ⟨hs2 a hf, hf⟩
    · rintro ⟨-, hf⟩; exact ⟨hs1 a hf, hf⟩
  exact (hperm.map f).sum_eq

/-- The balance and known-address effect of a completed `transferPhase1`. -/
theorem transferPhase1_balances (s : State) (now : Int) (sfrom sto : Addr) (v : Int) (s8 : State)
    (h : transferPhase1 s now sfrom sto v = .ok s8) :
    s8.balances = updFn (updFn s.balances sfrom (s.balances sfrom - v)) sto
      ((updFn s.balances sfrom (s.balances sfrom - v)) sto + v) ∧
    s8.addresses = (if sto ∈ s.addresses then s.addresses else s.addresses ++ [sto]) ∧
    0 ≤ v ∧ v ≤ s.balances sfrom := by
  unfold transferPhase1 at h
  split at h
  · exact Except.noConfusion h
  rename_i hv
  split at h
  · exact Except.noConfusion h
  rename_i hbal
  dsimp only at h
  split at h
  · exact Except.noConfusion h
  rw [Except.ok.injEq] at h
  subst h
  refine ⟨?_, ?_, not_lt.mp hv, not_lt.mp hbal⟩
  · split <;> simp [setRecord]
  · split <;> rename_i hmem <;> simp [setRecord] at hmem ⊢ <;> simp [hmem]

/-- A completed external `transfer` preserves the ledger bookkeeping: the
known-address list stays duplicate-free, covers every account with a nonzero
balance, and its balance sum still equals the total supply. -/
theorem transfer_conservation (s : State) (sender : Addr) (now : Int) (sto : Addr) (v : Int)
    (s2 : State) (h : transfer s sender now sto v = .ok s2)
    (hn : s.addresses.Nodup) (hsupp : ∀ a, a ∉ s.addresses → s.balances a = 0)
    (hsum : (s.addresses.map s.balances).sum = s.total_supply) :
    s2.addresses.Nodup ∧ (∀ a, a ∉ s2.addresses → s2.balances a = 0) ∧
    (s2.addresses.map s2.balances).sum = s2.total_supply := by
  obtain ⟨s8, hp, rfl⟩ := transfer_ok_shape s sender now sto v s2 h
  obtain ⟨hb, ha, hv0, hvb⟩ := transferPhase1_balances s now sender sto v s8 hp
  obtain ⟨-, -, -, -, -, -, -, -, -, -, -, -, hts, -⟩ := transferPhase1_frame s now sender sto v s8 hp
  simp only [transferPhase2_addresses, transferPhase2_balances, transferPhase2_total_supply]
  rw [hb, ha, hts]
  have hvz : sender ∉ s.addresses → v = 0 := by
    intro hno
    have := hsupp sender hno
    omega
  have hb1from : updFn s.balances sender (s.balances sender - v) sender = s.balances sender - v := by
    simp [updFn]
  have hb1other : ∀ a, a ≠ sender →
      updFn s.balances sender (s.balances sender - v) a = s.balances a := by
    intro a hne
    simp [updFn, hne]
  have hsum1 : (s.addresses.map (updFn s.balances sender (s.balances sender - v))).sum =
      s.total_supply - v := by
    by_cases hfrom : sender ∈ s.addresses
    · rw [sum_map_updFn_mem _ _ _ _ hn hfrom, hsum]
      ring
    · rw [map_updFn_not_mem _ _ _ _ hfrom, hsum]
      have := hvz hfrom
      omega
  -- the recipient-extended list
  by_cases hto : sto ∈ s.addresses
  · rw [if_pos hto]
    refine ⟨hn, ?_, ?_⟩
    · intro a hano
      have hne1 : a ≠ sto := fun hh => hano (hh ▸ hto)
      rw [updFn, if_neg hne1]
      by_cases hne2 : a = sender
      · subst hne2
        rw [hb1from, hsupp a hano, hvz hano]
        ring
      · rw [hb1other a hne2]
        exact hsupp a hano
    · rw [sum_map_updFn_mem _ _ _ _ hn hto, hsum1]
      ring
  · rw [if_neg hto]
    have hn2 : (s.addresses ++ [sto]).Nodup := by
      rw [← List.concat_eq_append]
      exact hn.concat hto
    have hb1to : updFn s.balances sender (s.balances sender - v) sto = 0 := by
      by_cases hts2 : sto = sender
      · subst hts2
        rw [hb1from, hsupp sto hto, hvz hto]
        ring
      · rw [hb1other sto hts2]
        exact hsupp sto hto
    refine ⟨hn2, ?_, ?_⟩
    · intro a hano
      rw [List.mem_append, not_or] at hano
      have hne1 : a ≠ sto := by
        intro hh
        exact hano.2 (by simp [hh])
      rw [updFn, if_neg hne1]
      by_cases hne2 : a = sender
      · subst hne2
        rw [hb1from, hsupp a hano.1, hvz hano.1]
        ring
      · rw [hb1other a hne2]
        exact hsupp a hano.1
    · have hmem : sto ∈ s.addresses ++ [sto] := by simp
      rw [sum_map_updFn_mem _ _ _ _ hn2 hmem]
      rw [List.map_append, List.sum_append]
      simp only [List.map_cons, List.map_nil, List.sum_cons, List.sum_nil]
      rw [hsum1, hb1to]
      ring

/-- The ledger bookkeeping holds in every state reachable from installation by
transfers alone. -/
theorem reachTx_ledger (s : State) (h : ReachTx s) :
    s.addresses.Nodup ∧ (∀ a, a ∉ s.addresses → s.balances a = 0) ∧
    (s.addresses.map s.balances).sum = s.total_supply := by
  induction h with
  | install owner i d s hi =>
      unfold on_install at hi
      split at hi
      · exact Except.noConfusion hi
      split at hi
      · exact Except.noConfusion hi
      rw [Except.ok.injEq] at hi
      subst hi
      refine ⟨List.nodup_singleton _, ?_, ?_⟩
      · intro a ha
        simp only [List.mem_singleton] at ha
        simp [updFn, ha]
      · simp [updFn]
  | step s s2 sender now sto v hr htr ih =>
      exact transfer_conservation s sender now sto v s2 htr ih.1 ih.2.1 ih.2.2

/-- C2: starting from the installed state, after any sequence of completed
transfers the sum of `total_balance` over all accounts — formalised as the sum
over any duplicate-free list of addresses that contains every account with a
nonzero balance — equals `total_supply`.  Self-transfers are instances of the
transfer step. -/
theorem tap_balance_conservation (s : State) (h : ReachTx s)
    (l : List Addr) (hl : l.Nodup) (hsupp : ∀ a, s.balances a ≠ 0 → a ∈ l) :
    (l.map s.balances).sum = s.total_supply := by
  obtain ⟨hn, hs0, hsum⟩ := reachTx_ledger s h
  have heq := sum_eq_of_support s.balances l s.addresses hl hn hsupp (fun a ha => by
    by_contra hmem
    exact ha (hs0 a hmem))
  rw [heq, hsum]

theorem tap_balance_conservation_witness :
    ([A0].map SInstall.balances).sum = SInstall.total_supply :=
  tap_balance_conservation SInstall (ReachTx.install A0 1000 2 SInstall rfl) [A0]
    (List.nodup_singleton _) (fun a ha => by
      rcases eq_or_ne a A0 with rfl | hne
      · simp
      · exact absurd (by simp [SInstall, S0, updFn, hne]) ha)

/-! The staking reconciliation invariant. -/

@[simp] theorem setRecord_balances (s : State) (a : Addr) (r : StakeRecord) :
    (setRecord s a r).balances = s.balances := rfl

theorem reconciled_congr (t s : State) (hb : t.balances = s.balances)
    (hr : t.staked_balances = s.staked_balances) (h : ∀ a, reconciled s a) :
    ∀ a, reconciled t a := by
  intro a
  unfold reconciled first_time
  rw [hb, hr]
  exact h a

theorem reconciled_makeAvailable (s : State) (now : Int) (x : Addr)
    (h : ∀ a, reconciled s a) : ∀ a, reconciled (makeAvailable s now x) a := by
  intro a
  unfold makeAvailable
  dsimp only
  split
  · by_cases hax : a = x
    · subst hax
      have ha := h a
      unfold reconciled first_time at ha ⊢
      simp only [setRecord_staked_self, setRecord_balances]
      intro hnf
      rcases imp_iff_not_or.mp ha with hft | hsum
      · rw [not_not] at hft
        obtain ⟨h1, h2, h3, h4⟩ := hft
        exact absurd ⟨by omega, h2, trivial, h4⟩ hnf
      · omega
    · have ha := h a
      unfold reconciled first_time at ha ⊢
      rw [setRecord_staked_ne _ _ _ _ hax]
      exact ha
  · exact h a

theorem reconciled_check_first_time (s : State) (x : Addr) (h : ∀ a, reconciled s a) :
    ∀ a, reconciled (check_first_time s x) a := by
  intro a
  unfold check_first_time
  split
  · rename_i hft
    by_cases hax : a = x
    · subst hax
      obtain ⟨h1, h2, h3, h4⟩ := hft
      unfold reconciled first_time
      simp only [setRecord_staked_self, setRecord_balances]
      omega
    · have ha := h a
      unfold reconciled first_time at ha ⊢
      rw [setRecord_staked_ne _ _ _ _ hax]
      exact ha
  · exact h a

/-- After the first-touch migration an account is balanced unconditionally. -/
theorem check_first_time_balanced (s : State) (x : Addr) (h : ∀ a, reconciled s a) :
    ((check_first_time s x).staked_balances x).available +
      ((check_first_time s x).staked_balances x).staked +
      ((check_first_time s x).staked_balances x).unstaking = s.balances x := by
  unfold check_first_time
  split
  · rename_i hft
    obtain ⟨h1, h2, h3, h4⟩ := hft
    simp only [setRecord_staked_self]
    omega
  · rename_i hft
    exact h x hft

theorem balanced_check_first_time (s : State) (x a : Addr)
    (hb : (s.staked_balances a).available + (s.staked_balances a).staked +
      (s.staked_balances a).unstaking = s.balances a) :
    ((check_first_time s x).staked_balances a).available +
      ((check_first_time s x).staked_balances a).staked +
      ((check_first_time s x).staked_balances a).unstaking = (check_first_time s x).balances a := by
  unfold check_first_time
  split
  · rename_i hft
    by_cases hax : a = x
    · subst hax
      obtain ⟨h1, h2, h3, h4⟩ := hft
      simp only [setRecord_staked_self, setRecord_balances]
      omega
    · rw [setRecord_staked_ne _ _ _ _ hax]
      exact hb
  · exact hb

theorem balanced_makeAvailable (s : State) (now : Int) (x a : Addr)
    (hb : (s.staked_balances a).available + (s.staked_balances a).staked +
      (s.staked_balances a).unstaking = s.balances a) :
    ((makeAvailable s now x).staked_balances a).available +
      ((makeAvailable s now x).staked_balances a).staked +
      ((makeAvailable s now x).staked_balances a).unstaking = (makeAvailable s now x).balances a := by
  unfold makeAvailable
  dsimp only
  split
  · by_cases hax : a = x
    · subst hax
      simp only [setRecord_staked_self, setRecord_balances]
      omega
    · rw [setRecord_staked_ne _ _ _ _ hax]
      exact hb
  · exact hb

theorem reconciled_stake (s : State) (sender : Addr) (now v : Int) (s2 : State)
    (h : stake s sender now v = .ok s2) (hrec : ∀ a, reconciled s a) :
    ∀ a, reconciled s2 a := by
  unfold stake at h
  split at h; · exact Except.noConfusion h
  split at h; · exact Except.noConfusion h
  split at h; · exact Except.noConfusion h
  split at h; · exact Except.noConfusion h
  dsimp only at h
  split at h; · exact Except.noConfusion h
  rw [Except.ok.injEq] at h
  subst h
  refine reconciled_congr _ _ (putStakeChange_balances _ _) (putStakeChange_staked_balances _ _) ?_
  have hrec2 : ∀ a, reconciled (makeAvailable (check_first_time s sender) now sender) a :=
    reconciled_makeAvailable _ now sender (reconciled_check_first_time s sender hrec)
  have hbal2 : ((makeAvailable (check_first_time s sender) now sender).staked_balances sender).available +
      ((makeAvailable (check_first_time s sender) now sender).staked_balances sender).staked +
      ((makeAvailable (check_first_time s sender) now sender).staked_balances sender).unstaking =
      (makeAvailable (check_first_time s sender) now sender).balances sender :=
    balanced_makeAvailable _ now sender sender
      (by rw [check_first_time_balances]; exact check_first_time_balanced s sender hrec)
  intro a
  by_cases hax : a = sender
  · subst hax
    unfold reconciled
    intro _
    dsimp only
    simp only [setRecord_staked_self, setRecord_balances]
    split_ifs with hvo <;> omega
  · have ha := hrec2 a
    unfold reconciled first_time at ha ⊢
    dsimp only
    rw [setRecord_staked_ne _ _ _ _ hax]
    simp only [setRecord_balances]
    exact ha

theorem reconciled_locklist_core (s1 : State) (now : Int) (x : Addr)
    (hrec : ∀ a, reconciled s1 a) (hsb : (s1.staked_balances x).staked > 0) (tsb : Int) :
    ∀ a, reconciled (putStakeChange
      { setRecord (makeAvailable s1 now x) x
          { (makeAvailable s1 now x).staked_balances x with
            staked := 0
            unstaking := ((makeAvailable s1 now x).staked_balances x).unstaking +
              (s1.staked_balances x).staked
            unstakingPeriod := now + (makeAvailable s1 now x).unstaking_period } with
        total_staked_balance := tsb } x) a := by
  refine reconciled_congr _ _ (putStakeChange_balances _ _) (putStakeChange_staked_balances _ _) ?_
  intro a
  by_cases hax : a = x
  · subst hax
    unfold reconciled
    intro _
    dsimp only
    simp only [setRecord_staked_self, setRecord_balances]
    have hbal := balanced_makeAvailable s1 now a a (hrec a (fun hf => (ne_of_gt hsb) hf.2.1))
    simp only [makeAvailable_staked, makeAvailable_balances] at hbal ⊢
    omega
  · have ha := reconciled_makeAvailable s1 now x hrec a
    unfold reconciled first_time at ha ⊢
    dsimp only
    rw [setRecord_staked_ne _ _ _ _ hax]
    simp only [setRecord_balances]
    exact ha

theorem reconciled_set_locklist (s : State) (sender : Addr) (now : Int) (x : Addr) (s2 : State)
    (h : set_locklist_address s sender now x = .ok s2) (hrec : ∀ a, reconciled s a) :
    ∀ a, reconciled s2 a := by
  unfold set_locklist_address at h
  split at h; · exact Except.noConfusion h
  split at h; · exact Except.noConfusion h
  by_cases hmem : x ∈ s.locklist <;> simp only [hmem, if_true, if_false] at h
  · split at h
    · rename_i hsb
      rw [Except.ok.injEq] at h
      subst h
      exact reconciled_locklist_core s now x hrec hsb _
    · rw [Except.ok.injEq] at h
      subst h
      exact hrec
  · split at h
    · rename_i hsb
      rw [Except.ok.injEq] at h
      subst h
      exact reconciled_locklist_core { s with locklist := s.locklist ++ [x] } now x
        (fun a => hrec a) hsb _
    · rw [Except.ok.injEq] at h
      subst h
      exact fun a => hrec a

theorem reconciled_transfer (s : State) (sender : Addr) (now : Int) (sto : Addr) (v : Int)
    (s2 : State) (h : transfer s sender now sto v = .ok s2) (hrec : ∀ a, reconciled s a) :
    ∀ a, reconciled s2 a := by
  obtain ⟨s8, hp, rfl⟩ := transfer_ok_shape s sender now sto v s2 h
  refine reconciled_congr _ _ (transferPhase2_balances _ _ _)
    (transferPhase2_staked_balances _ _ _) ?_
  unfold transferPhase1 at hp
  split at hp; · exact Except.noConfusion hp
  split at hp; · exact Except.noConfusion hp
  dsimp only at hp
  split at hp; · exact Except.noConfusion hp
  rw [Except.ok.injEq] at hp
  subst hp
  refine reconciled_congr _ _ (by split <;> rfl) (by split <;> rfl) ?_
  have hrec1 := reconciled_check_first_time s sender hrec
  have hrec2 := reconciled_check_first_time (check_first_time s sender) sto hrec1
  have hrec3 := reconciled_makeAvailable (check_first_time (check_first_time s sender) sto)
    now sto hrec2
  have hrecM := reconciled_makeAvailable
    (makeAvailable (check_first_time (check_first_time s sender) sto) now sto) now sender hrec3
  have hf1 := check_first_time_balanced s sender hrec
  have hf2 := balanced_check_first_time (check_first_time s sender) sto sender
    (by rw [check_first_time_balances]; exact hf1)
  have hf3 := balanced_makeAvailable (check_first_time (check_first_time s sender) sto)
    now sto sender hf2
  have hbfrom := balanced_makeAvailable
    (makeAvailable (check_first_time (check_first_time s sender) sto) now sto) now sender
    sender hf3
  have ht1 := check_first_time_balanced (check_first_time s sender) sto hrec1
  have ht2 := balanced_makeAvailable (check_first_time (check_first_time s sender) sto)
    now sto sto (by rw [check_first_time_balances]; exact ht1)
  have hbto := balanced_makeAvailable
    (makeAvailable (check_first_time (check_first_time s sender) sto) now sto) now sender
    sto ht2
  intro a
  unfold reconciled first_time
  simp only [setRecord, updFn]
  by_cases h1 : a = sto
  · by_cases h2 : sto = sender
    · intro _
      subst h2
      subst h1
      simp at hbfrom ⊢; omega
    · intro _
      subst h1
      simp [h2] at hbto ⊢; omega
  · by_cases h2 : a = sender
    · intro _
      subst h2
      have h3 : ¬(a = sto) := h1
      simp [h3] at hbfrom ⊢; omega
    · have ha := hrecM a
      unfold reconciled first_time at ha
      simp only [if_neg h1, if_neg h2]
      exact ha

/-- Every completed operation preserves the reconciliation property of every
account. -/
theorem apply_reconciled (s : State) (op : Op) (s2 : State) (h : apply op s = .ok s2)
    (hrec : ∀ a, reconciled s a) : ∀ a, reconciled s2 a := by
  cases op with
  | untetherOp sender => rw [untether_ok s sender s2 h]; exact hrec
  | toggleStakingOp sender =>
      rw [toggle_staking_enabled_ok s sender s2 h]; exact fun a => hrec a
  | toggleSwitchDivsOp sender =>
      rw [toggle_switch_divs_ok s sender s2 h]; exact fun a => hrec a
  | togglePausedOp sender => rw [togglePaused_ok s sender s2 h]; exact fun a => hrec a
  | stakeOp sender now v => exact reconciled_stake s sender now v s2 h hrec
  | transferOp sender now sto v => exact reconciled_transfer s sender now sto v s2 h hrec
  | setMinimumStakeOp sender amount =>
      rw [set_minimum_stake_ok s sender amount s2 h]; exact fun a => hrec a
  | setUnstakingPeriodOp sender t =>
      rw [set_unstaking_period_ok s sender t s2 h]; exact fun a => hrec a
  | setMaxLoopOp sender loops =>
      rw [set_max_loop_ok s sender loops s2 h]; exact fun a => hrec a
  | setDividendsScoreOp sender score =>
      rw [set_dividends_score_ok s sender score s2 h]; exact fun a => hrec a
  | getBalanceUpdatesOp sender =>
      simp only [apply] at h
      cases hg : get_balance_updates s sender with
      | error e => rw [hg] at h; exact Except.noConfusion h
      | ok p =>
          rw [hg] at h
          simp only [Except.map] at h
          rw [Except.ok.injEq] at h
          subst h
          rcases get_balance_updates_ok s sender p.1 p.2 (by rw [hg]) with
            ⟨-, h2 | ⟨-, -, h2⟩ | ⟨-, h2⟩⟩ <;> rw [h2] <;> exact fun a => hrec a
  | clearYesterdaysChangesOp sender =>
      simp only [apply] at h
      cases hg : clear_yesterdays_changes s sender with
      | error e => rw [hg] at h; exact Except.noConfusion h
      | ok p =>
          rw [hg] at h
          simp only [Except.map] at h
          rw [Except.ok.injEq] at h
          subst h
          rcases clear_yesterdays_changes_ok s sender p.1 p.2 (by rw [hg]) with h2 | h2 <;>
            rw [h2]
          · exact fun a => hrec a
          · exact reconciled_congr _ _ (setChanges_balances _ _ _)
              (setChanges_staked_balances _ _ _) hrec
  | removeFromBlacklistOp sender a =>
      rcases remove_from_blacklist_ok s sender a s2 h with h2 | h2 <;> rw [h2] <;>
        exact fun a => hrec a
  | setBlacklistAddressOp sender a =>
      rcases set_blacklist_address_ok s sender a s2 h with h2 | h2 <;> rw [h2] <;>
        exact fun a => hrec a
  | switchAddressUpdateDbOp sender =>
      rw [switch_address_update_db_ok s sender s2 h]; exact fun a => hrec a
  | getStakeUpdatesOp sender =>
      simp only [apply] at h
      cases hg : get_stake_updates s sender with
      | error e => rw [hg] at h; exact Except.noConfusion h
      | ok p =>
          rw [hg] at h
          simp only [Except.map] at h
          rw [Except.ok.injEq] at h
          subst h
          rcases get_stake_updates_ok s sender p.1 p.2 (by rw [hg]) with h2 | ⟨-, h2⟩ <;>
            rw [h2] <;> exact fun a => hrec a
  | switchStakeUpdateDbOp sender =>
      rw [switch_stake_update_db_ok s sender s2 h]; exact fun a => hrec a
  | clearYesterdaysStakeChangesOp sender =>
      simp only [apply] at h
      cases hg : clear_yesterdays_stake_changes s sender with
      | error e => rw [hg] at h; exact Except.noConfusion h
      | ok p =>
          rw [hg] at h
          simp only [Except.map] at h
          rw [Except.ok.injEq] at h
          subst h
          rcases clear_yesterdays_stake_changes_ok s sender p.1 p.2 (by rw [hg]) with h2 | h2 <;>
            rw [h2]
          · exact fun a => hrec a
          · exact reconciled_congr _ _ (setStakeChanges_balances _ _ _)
              (setStakeChanges_staked_balances _ _ _) hrec
  | removeFromLocklistOp sender a =>
      rw [remove_from_locklist_ok s sender a s2 h]; exact fun a => hrec a
  | setLocklistAddressOp sender now a => exact reconciled_set_locklist s sender now a s2 h hrec
  | removeFromWhitelistOp sender a =>
      rw [remove_from_whitelist_ok s sender a s2 h]; exact fun a => hrec a
  | setWhitelistAddressOp sender a =>
      rcases set_whitelist_address_ok s sender a s2 h with h2 | h2 <;> rw [h2] <;>
        exact fun a => hrec a

/-- C1: in every state reachable from installation by any sequence of
completed operations — transfers (as sender or recipient), stakes, locklist
additions with their forced unstake, drains, flips, clears and configuration
changes — every account that has been migrated into staking accounting
(`first_time` false: available, staked, unstaking not all zero, or zero total
balance) satisfies `available + staked + unstaking = total_balance`.
Settlement of matured unstaking (`_makeAvailable`) happens inside these
operations and is covered by the per-operation preservation lemmas. -/
theorem tap_reconciliation_invariant (s : State) (h : ReachAny s) : ∀ a, reconciled s a := by
  induction h with
  | install owner i d s hi =>
      unfold on_install at hi
      split at hi; · exact Except.noConfusion hi
      split at hi; · exact Except.noConfusion hi
      rw [Except.ok.injEq] at hi
      subst hi
      intro a
      unfold reconciled first_time
      dsimp only
      intro hnf
      simp only [StakeRecord.zero] at hnf ⊢
      simp at hnf
      simp [hnf]
  | step s s2 op hr hok ih => exact apply_reconciled s op s2 hok ih

theorem tap_reconciliation_invariant_witness : reconciled SInstall A2 :=
  tap_reconciliation_invariant SInstall (ReachAny.install A0 1000 2 SInstall rfl) A2
